import Mathlib

/-!
# Lepton data collector: control-bus encoder and acquisition loop

A shallow embedding of `src/code/lepton_data_collector.c`.

The program talks to the outside world only through system calls.  Every call
is modelled by (1) an `Event` appended to a chronological log and (2) a response
taken from an environment record (`Env`, `CycleEnv`).  The directory the process
writes into is a finite map from file name to contents.  Console output
(`printf`, `perror`, `fprintf`) is not modelled; `fwrite` and `fclose`, whose
results the program ignores, are modelled as succeeding.
-/

namespace Lepton

/-! ## Constants (lines 13-24) -/

def FRAME_WIDTH : Nat := 160
def FRAME_HEIGHT : Nat := 120
def FRAME_SIZE : Nat := FRAME_WIDTH * FRAME_HEIGHT * 2
def VIDEO_DEVICE : String := "/dev/video0"
def I2C_DEVICE : String := "/dev/i2c-1"
def LEPTON_I2C_ADDR : Nat := 0x2A
def CAPTURE_DURATION : Int := 3600
def LEPTON_CCI_SET_AGC_ENABLE : Nat := 0x0104
def LEPTON_CCI_SET_RADIOMETRY_ENABLE : Nat := 0x0204

/-- Size in bytes of one `uint16_t` sample (`sizeof(uint16_t)`). -/
def SIZEOF_UINT16 : Nat := 2

/-! ## Data passed to the kernel -/

/-- One `struct i2c_msg`; `buf` is the pointed-to byte array. -/
structure i2c_msg where
  addr : Nat
  flags : Nat
  len : Nat
  buf : List Nat
deriving DecidableEq

/-- One `struct i2c_rdwr_ioctl_data`; `msgs` is the pointed-to message array. -/
structure i2c_rdwr_ioctl_data where
  msgs : List i2c_msg
  nmsgs : Nat
deriving DecidableEq

/-- The two device files the program opens. -/
inductive Dev
  | video
  | i2c
deriving DecidableEq

/-- Path each device is opened by. -/
def Dev.path : Dev → String
  | .video => VIDEO_DEVICE
  | .i2c => I2C_DEVICE

/-- Broken-down calendar time, the fields of `struct tm` that the file name uses.
`tm_year` counts years since 1900 and `tm_mon` months since January. -/
structure Tm where
  tm_year : Nat
  tm_mon : Nat
  tm_mday : Nat
  tm_hour : Nat
  tm_min : Nat
  tm_sec : Nat
deriving DecidableEq

/-- System calls and library calls with an outside effect, in the order made. -/
inductive Event
  | openDev (d : Dev) (ok : Bool)
  /-- The `VIDIOC_S_FMT` request for 16-bit grayscale at `width` x `height`. -/
  | s_fmt (width height : Nat) (ok : Bool)
  | i2c_rdwr (data : i2c_rdwr_ioctl_data) (ok : Bool)
  | streamon (ok : Bool)
  | startTime (t : Int)
  | checkTime (t : Int)
  | dqbuf (res : Option Nat)
  | read (count : Nat) (bytes_read : Int) (wallclock : Int)
  | fopen (name : String) (ok : Bool)
  | fwrite (bytes : List Nat)
  | fclose
  | qbuf (index : Nat) (ok : Bool)
  | usleep (usec : Nat)
  | streamoff (ok : Bool)
  | close (d : Dev)
deriving DecidableEq

/-! ## Program state -/

/-- The outside world as the program changes it (`files`, `log`) together with
the local variables of `main` that live across loop iterations. -/
structure State where
  files : List (String × List Nat)
  log : List Event
  frame : List Nat
  start_time : Int
  now : Int
deriving DecidableEq

/-- Append one event to the log. -/
def State.emit (s : State) (e : Event) : State :=
  { s with log := s.log ++ [e] }

/-- The state `main` starts in: empty directory, empty log.  The locals are not
initialised by the program; they are modelled as zero and are always written
before they are read. -/
def State.init : State :=
  { files := [], log := [], frame := List.replicate FRAME_SIZE 0, start_time := 0, now := 0 }

/-! ## Bus command encoder (lines 26-49) -/

/-- The function `lepton_cci_write` (the file descriptor is left implicit);
`ioctlOk` is whether `ioctl(fd, I2C_RDWR, &data)` succeeds. -/
def lepton_cci_write (s : State) (ioctlOk : Bool) (command_id value : Nat) : State × Int :=
  let buf : List Nat :=
    [ (command_id >>> 8) &&& 0xFF,
      command_id &&& 0xFF,
      (value >>> 8) &&& 0xFF,
      value &&& 0xFF ]
  let msg : i2c_msg := { addr := LEPTON_I2C_ADDR, flags := 0, len := 4, buf := buf }
  let data : i2c_rdwr_ioctl_data := { msgs := [msg], nmsgs := 1 }
  let s1 := s.emit (Event.i2c_rdwr data ioctlOk)
  if ioctlOk then (s1, 0) else (s1, -1)

/-! ## File naming (line 139) -/

/-- Decimal text of `n`, zero-padded on the left to two digits (`%m %d %H %M %S`). -/
def pad2 (n : Nat) : String :=
  if n < 10 then "0" ++ toString n else toString n

/-- Text produced by `strftime(filename, 64, "lepton_%Y%m%d_%H%M%S.grey", tm)`.
With `int` fields the text is at most 35 characters, so the 64-byte buffer is
never exceeded. -/
def strftime (tm : Tm) : String :=
  "lepton_" ++ toString (tm.tm_year + 1900) ++ pad2 (tm.tm_mon + 1) ++ pad2 tm.tm_mday
    ++ "_" ++ pad2 tm.tm_hour ++ pad2 tm.tm_min ++ pad2 tm.tm_sec ++ ".grey"

/-- A concrete `localtime` for a host whose zone is UTC: proleptic Gregorian
calendar date of `t` seconds after 1970-01-01T00:00:00, for `t` on or after
1900-01-01. -/
def gmtime (t : Int) : Tm :=
  let days : Int := t / 86400
  let secs : Nat := (t % 86400).toNat
  let z : Int := days + 719468
  let era : Int := z / 146097
  let doe : Nat := (z % 146097).toNat
  let yoe : Nat := (doe - doe / 1460 + doe / 36524 - doe / 146096) / 365
  let doy : Nat := doe - (365 * yoe + yoe / 4 - yoe / 100)
  let mp : Nat := (5 * doy + 2) / 153
  let d : Nat := doy - (153 * mp + 2) / 5 + 1
  let m : Nat := if mp < 10 then mp + 3 else mp - 9
  let y : Int := (yoe : Int) + era * 400 + (if m ≤ 2 then 1 else 0)
  { tm_year := (y - 1900).toNat, tm_mon := m - 1, tm_mday := d,
    tm_hour := secs / 3600, tm_min := secs / 60 % 60, tm_sec := secs % 60 }

/-! ## Directory contents -/

/-- Effect of `fopen(name, "wb")`, `fwrite`, `fclose` on the directory: the file
`name` is created, or truncated if it exists, and then holds `bytes`. -/
def fsWrite (files : List (String × List Nat)) (name : String) (bytes : List Nat) :
    List (String × List Nat) :=
  (name, bytes) :: files.filter (fun f => f.1 ≠ name)

/-! ## Responses of the outside world -/

/-- What the outside world answers during one pass through the loop body.
Answers to calls the pass does not reach are unused. -/
structure CycleEnv where
  /-- Value of `time(NULL)` at the top of the iteration (line 113). -/
  now : Int
  /-- Result of `VIDIOC_DQBUF`: index of the dequeued buffer, `none` on failure. -/
  dqbuf : Option Nat
  /-- Bytes the device has ready for `read`; `none` when `read` fails with -1. -/
  readData : Option (List Nat)
  /-- Wall-clock second at which `read` returns. The program takes no clock
  reading there; the value only stamps the `read` event. -/
  readDone : Int
  /-- Whether `fopen(filename, "wb")` succeeds. -/
  fopenOk : Bool
  /-- Whether `VIDIOC_QBUF` succeeds. -/
  qbufOk : Bool

/-- What the outside world answers over a whole run.  `cycles` lists the answers
for the successive loop iterations; a run that needs more iterations than the
list holds is still in its loop when the list ends. -/
structure Env where
  openVideo : Bool
  sFmt : Bool
  openI2c : Bool
  agcOk : Bool
  radOk : Bool
  streamOn : Bool
  startTime : Int
  localtime : Int → Tm
  cycles : List CycleEnv
  streamOff : Bool

/-! ## Acquisition loop (lines 111-162) -/

/-- How one pass through the loop body ends: `continue` or falling off the end
(`next`), the `break` of line 116, or the `break` of line 157. -/
inductive Flow
  | next
  | breakDuration
  | breakRequeue
deriving DecidableEq

/-- The library call `difftime(a, b)`: the difference of two `time_t` values,
exact as a `double` for every pair of clock readings below 2^53 seconds. -/
def difftime (a b : Int) : Int := a - b

/-- Effect of `read(video_fd, frame, count)` on the frame buffer and its return
value: at most `count` bytes of what the device has ready overwrite the start
of the buffer. -/
def readInto (frame : List Nat) (count : Nat) (ready : Option (List Nat)) : List Nat × Int :=
  match ready with
  | none => (frame, -1)
  | some d =>
    let got := d.take count
    (got ++ frame.drop got.length, (got.length : Int))

/-- One pass through the body of `while (1)` (lines 112-161). -/
def loopBody (D : Int) (localtime : Int → Tm) (c : CycleEnv) (s : State) : State × Flow :=
  let s := { s with now := c.now }.emit (Event.checkTime c.now)
  if difftime s.now s.start_time ≥ D then
    (s, Flow.breakDuration)
  else
    let s := s.emit (Event.dqbuf c.dqbuf)
    match c.dqbuf with
    | none => (s, Flow.next)
    | some index =>
      let r := readInto s.frame FRAME_SIZE c.readData
      let bytes_read := r.2
      let s := { s with frame := r.1 }.emit (Event.read FRAME_SIZE bytes_read c.readDone)
      if bytes_read ≠ (FRAME_SIZE : Int) then
        (s.emit (Event.qbuf index c.qbufOk), Flow.next)
      else
        let filename := strftime (localtime s.now)
        let s := s.emit (Event.fopen filename c.fopenOk)
        if !c.fopenOk then
          (s.emit (Event.qbuf index c.qbufOk), Flow.next)
        else
          let bytes := s.frame.take (SIZEOF_UINT16 * (FRAME_WIDTH * FRAME_HEIGHT))
          let s := { s with files := fsWrite s.files filename bytes }
          let s := (s.emit (Event.fwrite bytes)).emit Event.fclose
          let s := s.emit (Event.qbuf index c.qbufOk)
          if !c.qbufOk then
            (s, Flow.breakRequeue)
          else
            (s.emit (Event.usleep 111111), Flow.next)

/-- The `while (1)` loop run against the listed answers.  The second component
is how the loop was left, or `none` when the answers end with the loop still
running. -/
def loop (D : Int) (localtime : Int → Tm) : List CycleEnv → State → State × Option Flow
  | [], s => (s, none)
  | c :: cs, s =>
    match loopBody D localtime c s with
    | (s1, Flow.next) => loop D localtime cs s1
    | (s1, fl) => (s1, some fl)

/-! ## `main` (lines 51-172) -/

/-- The `return` statement, or the `break` leading to the final one, by which
`main` ends. -/
inductive ExitPath
  | videoOpenFailed
  | formatRejected
  | i2cOpenFailed
  | streamOnRejected
  | durationReached
  | requeueFailed
deriving DecidableEq

/-- Outcome of running `main`: the final state and, when `main` returned, its
return value and exit path (`none` while the loop is still running). -/
structure Run where
  state : State
  result : Option (Int × ExitPath)
deriving DecidableEq

/-- Lines 164-171: stream-off, close both handles, `return 0`. -/
def cleanup (streamOffOk : Bool) (s : State) : State :=
  ((s.emit (Event.streamoff streamOffOk)).emit (Event.close Dev.i2c)).emit (Event.close Dev.video)

/-- The function `main`, with the capture duration `CAPTURE_DURATION` as
parameter `D`. -/
def mainWith (D : Int) (env : Env) : Run :=
  let s := State.init.emit (Event.openDev Dev.video env.openVideo)
  if !env.openVideo then
    { state := s, result := some (-1, ExitPath.videoOpenFailed) }
  else
    let s := s.emit (Event.s_fmt FRAME_WIDTH FRAME_HEIGHT env.sFmt)
    if !env.sFmt then
      { state := s.emit (Event.close Dev.video), result := some (-1, ExitPath.formatRejected) }
    else
      let s := s.emit (Event.openDev Dev.i2c env.openI2c)
      if !env.openI2c then
        { state := s.emit (Event.close Dev.video), result := some (-1, ExitPath.i2cOpenFailed) }
      else
        let s := (lepton_cci_write s env.agcOk LEPTON_CCI_SET_AGC_ENABLE 0).1
        let s := (lepton_cci_write s env.radOk LEPTON_CCI_SET_RADIOMETRY_ENABLE 1).1
        let s := s.emit (Event.streamon env.streamOn)
        if !env.streamOn then
          { state := (s.emit (Event.close Dev.i2c)).emit (Event.close Dev.video),
            result := some (-1, ExitPath.streamOnRejected) }
        else
          let s := { s with start_time := env.startTime }.emit (Event.startTime env.startTime)
          match loop D env.localtime env.cycles s with
          | (s1, none) => { state := s1, result := none }
          | (s1, some Flow.breakRequeue) =>
            { state := cleanup env.streamOff s1, result := some (0, ExitPath.requeueFailed) }
          | (s1, some _) =>
            { state := cleanup env.streamOff s1, result := some (0, ExitPath.durationReached) }

/-- The program as compiled: `main` with `D = CAPTURE_DURATION`. -/
def main (env : Env) : Run := mainWith CAPTURE_DURATION env

/-- Exit status the parent process sees for a return value of `main`
(its low eight bits). -/
def exitStatus (ret : Int) : Nat := (ret % 256).toNat

/-! ## Observations on the log -/

/-- A requeue request (`VIDIOC_QBUF`), whatever its outcome. -/
def Event.isQbuf : Event → Bool
  | .qbuf _ _ => true
  | _ => false

/-- A dequeue (`VIDIOC_DQBUF`) that succeeded. -/
def Event.isDqbufOk : Event → Bool
  | .dqbuf (some _) => true
  | _ => false

/-- Name of the file a successful `fopen` opened for writing. -/
def Event.savedName : Event → Option String
  | .fopen name true => some name
  | _ => none

/-- Names of the output files opened for writing, in order, one entry per
persisted frame. -/
def savedNames (log : List Event) : List String :=
  log.filterMap Event.savedName

/-- Events that the loop body can emit (lines 112-161). -/
def Event.loopKind : Event → Bool
  | .checkTime _ => true
  | .dqbuf _ => true
  | .read _ _ _ => true
  | .fopen _ _ => true
  | .fwrite _ => true
  | .fclose => true
  | .qbuf _ _ => true
  | .usleep _ => true
  | _ => false

/-- State in which the loop is entered when every set-up step succeeded. -/
def streamState (env : Env) : State :=
  { files := []
    log := [Event.openDev Dev.video true,
            Event.s_fmt FRAME_WIDTH FRAME_HEIGHT true,
            Event.openDev Dev.i2c true,
            Event.i2c_rdwr { msgs := [{ addr := 0x2A, flags := 0, len := 4,
                                        buf := [1, 4, 0, 0] }], nmsgs := 1 } env.agcOk,
            Event.i2c_rdwr { msgs := [{ addr := 0x2A, flags := 0, len := 4,
                                        buf := [2, 4, 0, 1] }], nmsgs := 1 } env.radOk,
            Event.streamon true,
            Event.startTime env.startTime]
    frame := List.replicate FRAME_SIZE 0
    start_time := env.startTime
    now := 0 }

/-! ## Invariants -/

/-- The directory holds one file per distinct name opened for writing, and
every file holds a whole frame that was written. -/
def FilesInv (s : State) : Prop :=
  (s.files.map Prod.fst).Nodup ∧
  (∀ name, name ∈ s.files.map Prod.fst ↔ name ∈ savedNames s.log) ∧
  (∀ f ∈ s.files, f.2.length = FRAME_SIZE ∧ Event.fwrite f.2 ∈ s.log)

/-- Relation between two adjacent events of a log: if the later one is a
dequeue, the earlier one is a duration check that read an elapsed time below
`D` (start time `T0`). -/
def CheckedDequeue (D T0 : Int) (prev e : Event) : Prop :=
  ∀ r, e = Event.dqbuf r → ∃ t, prev = Event.checkTime t ∧ difftime t T0 < D

/-- No duration check in the log read an elapsed time of `D` or more. -/
def NoCheckSatisfied (D T0 : Int) (log : List Event) : Prop :=
  ∀ t, Event.checkTime t ∈ log → difftime t T0 < D

/-- Every file in the directory holds the bytes written at the last successful
open of its name: in the log that open is directly followed by the write of the
file's content, and the name is not opened for writing again afterwards. -/
def FilesLatest (s : State) : Prop :=
  ∀ f ∈ s.files, ∃ a b,
    s.log = a ++ Event.fopen f.1 true :: Event.fwrite f.2 :: b ∧ f.1 ∉ savedNames b

/-- Every `fopen` in the log directly follows the duration check, the successful
dequeue and the full-size read of its iteration, and its file name is the text
`strftime` gives for the local time of that duration check's reading. -/
def OpensNamed (localtime : Int → Tm) (log : List Event) : Prop :=
  ∀ a name ok b, log = a ++ Event.fopen name ok :: b →
    ∃ a1 t i w,
      a = a1 ++ [Event.checkTime t, Event.dqbuf (some i), Event.read FRAME_SIZE FRAME_SIZE w] ∧
      name = strftime (localtime t)

/-! ## Sample answers of the outside world -/

/-- A frame's worth of ready bytes, all equal to `b`. -/
def fullFrame (b : Nat) : List Nat := List.replicate FRAME_SIZE b

/-- Answers of a cycle at wall-clock second `now` in which every call succeeds
at once and a whole frame of bytes `b` is ready. -/
def cycleOk (now : Int) (b : Nat) : CycleEnv :=
  { now := now, dqbuf := some 0, readData := some (fullFrame b), readDone := now,
    fopenOk := true, qbufOk := true }

/-- Answers of a run on a host in UTC, started at second 0, in which every
set-up call succeeds; the loop answers are `cycles`. -/
def envOk (cycles : List CycleEnv) : Env :=
  { openVideo := true, sFmt := true, openI2c := true, agcOk := true, radOk := true,
    streamOn := true, startTime := 0, localtime := gmtime, cycles := cycles,
    streamOff := true }

/-- One cycle that persists a frame, then the iteration whose duration check
ends the run. -/
def envOneFrame : Env :=
  envOk [cycleOk 0 7, cycleOk 3600 9]

/-- Two consecutive cycles within the same wall-clock second, each persisting a
frame, followed by the iteration whose duration check ends the run. -/
def envSameSecond : Env :=
  envOk [cycleOk 0 7, cycleOk 0 8, cycleOk 3600 9]

/-- A cycle whose duration check reads second 0 and whose dequeue blocks, so
that the frame is read at second 2; then the iteration that ends the run. -/
def envLateRead : Env :=
  envOk [{ now := 0, dqbuf := some 0, readData := some (fullFrame 7), readDone := 2,
           fopenOk := true, qbufOk := true },
         cycleOk 3600 9]

/-- One cycle that persists its frame and whose requeue then fails. -/
def envRequeueFails : Env :=
  envOk [{ now := 0, dqbuf := some 0, readData := some (fullFrame 7), readDone := 0,
           fopenOk := true, qbufOk := false }]

/-- A short read whose requeue fails, a file-open failure whose requeue fails,
a cycle in which everything succeeds, and the iteration that ends the run. -/
def envRequeueFailsAfterSkip : Env :=
  envOk [{ now := 0, dqbuf := some 0, readData := some [1, 2, 3], readDone := 0,
           fopenOk := true, qbufOk := false },
         { now := 1, dqbuf := some 1, readData := some (fullFrame 7), readDone := 1,
           fopenOk := false, qbufOk := false },
         cycleOk 2 8,
         cycleOk 3600 9]

end Lepton

namespace Lepton

/-! ## Arithmetic of the byte split -/

theorem hi_byte (x : Nat) (h : x < 65536) : (x >>> 8) &&& 0xFF = x / 256 := by
  have h1 : x >>> 8 = x / 256 := by
    rw [Nat.shiftRight_eq_div_pow]
  have h2 : x / 256 < 256 := by omega
  rw [h1]
  have h3 : (x / 256) &&& 0xFF = (x / 256) % 256 := Nat.and_pow_two_sub_one_eq_mod (x / 256) 8
  rw [h3]
  exact Nat.mod_eq_of_lt h2

theorem lo_byte (x : Nat) : x &&& 0xFF = x % 256 :=
  Nat.and_pow_two_sub_one_eq_mod x 8

end Lepton

namespace Lepton

/-! ## The loop body, case by case -/

theorem frame_size_eq : FRAME_SIZE = 38400 := by decide

theorem fwrite_count_eq : SIZEOF_UINT16 * (FRAME_WIDTH * FRAME_HEIGHT) = FRAME_SIZE := by decide

theorem readInto_snd_le (frame : List Nat) (n : Nat) (r : Option (List Nat)) :
    (readInto frame n r).2 ≤ (n : Int) := by
  cases r with
  | none => simp only [readInto]; omega
  | some d =>
    simp only [readInto, List.length_take]
    exact_mod_cast Nat.min_le_left n d.length

theorem readInto_full (frame : List Nat) (n : Nat) (r : Option (List Nat))
    (h : (readInto frame n r).2 = (n : Int)) :
    ∃ d, r = some d ∧ (d.take n).length = n ∧ (readInto frame n r).1.take n = d.take n := by
  cases r with
  | none => simp only [readInto] at h; omega
  | some d =>
    simp only [readInto] at h
    have hl : (d.take n).length = n := by exact_mod_cast h
    refine ⟨d, rfl, hl, ?_⟩
    simp only [readInto]
    rw [List.take_append_of_le_length (by omega)]
    rw [List.take_of_length_le (by omega)]

theorem loopBody_duration (D : Int) (lt : Int → Tm) (c : CycleEnv) (s : State)
    (h : D ≤ difftime c.now s.start_time) :
    loopBody D lt c s
      = ({ s with now := c.now, log := s.log ++ [Event.checkTime c.now] }, Flow.breakDuration) := by
  simp [loopBody, State.emit, h]

theorem loopBody_dqfail (D : Int) (lt : Int → Tm) (c : CycleEnv) (s : State)
    (h : difftime c.now s.start_time < D) (hd : c.dqbuf = none) :
    loopBody D lt c s
      = ({ s with now := c.now,
                  log := s.log ++ [Event.checkTime c.now, Event.dqbuf none] }, Flow.next) := by
  simp [loopBody, State.emit, not_le.mpr h, hd]

theorem loopBody_short (D : Int) (lt : Int → Tm) (c : CycleEnv) (s : State) (i : Nat)
    (h : difftime c.now s.start_time < D) (hd : c.dqbuf = some i)
    (hr : (readInto s.frame FRAME_SIZE c.readData).2 ≠ (FRAME_SIZE : Int)) :
    loopBody D lt c s
      = ({ s with now := c.now,
                  frame := (readInto s.frame FRAME_SIZE c.readData).1,
                  log := s.log ++ [Event.checkTime c.now, Event.dqbuf (some i),
                    Event.read FRAME_SIZE (readInto s.frame FRAME_SIZE c.readData).2 c.readDone,
                    Event.qbuf i c.qbufOk] }, Flow.next) := by
  simp [loopBody, State.emit, not_le.mpr h, hd, hr]

theorem loopBody_nofile (D : Int) (lt : Int → Tm) (c : CycleEnv) (s : State) (i : Nat)
    (h : difftime c.now s.start_time < D) (hd : c.dqbuf = some i)
    (hr : (readInto s.frame FRAME_SIZE c.readData).2 = (FRAME_SIZE : Int))
    (hf : c.fopenOk = false) :
    loopBody D lt c s
      = ({ s with now := c.now,
                  frame := (readInto s.frame FRAME_SIZE c.readData).1,
                  log := s.log ++ [Event.checkTime c.now, Event.dqbuf (some i),
                    Event.read FRAME_SIZE FRAME_SIZE c.readDone,
                    Event.fopen (strftime (lt c.now)) false,
                    Event.qbuf i c.qbufOk] }, Flow.next) := by
  simp [loopBody, State.emit, not_le.mpr h, hd, hr, hf]

theorem loopBody_saved (D : Int) (lt : Int → Tm) (c : CycleEnv) (s : State) (i : Nat)
    (h : difftime c.now s.start_time < D) (hd : c.dqbuf = some i)
    (hr : (readInto s.frame FRAME_SIZE c.readData).2 = (FRAME_SIZE : Int))
    (hf : c.fopenOk = true) :
    loopBody D lt c s
      = ({ s with now := c.now,
                  frame := (readInto s.frame FRAME_SIZE c.readData).1,
                  files := fsWrite s.files (strftime (lt c.now))
                    ((readInto s.frame FRAME_SIZE c.readData).1.take FRAME_SIZE),
                  log := s.log ++ ([Event.checkTime c.now, Event.dqbuf (some i),
                    Event.read FRAME_SIZE FRAME_SIZE c.readDone,
                    Event.fopen (strftime (lt c.now)) true,
                    Event.fwrite ((readInto s.frame FRAME_SIZE c.readData).1.take FRAME_SIZE),
                    Event.fclose,
                    Event.qbuf i c.qbufOk]
                    ++ (if c.qbufOk then [Event.usleep 111111] else [])) },
         if c.qbufOk then Flow.next else Flow.breakRequeue) := by
  cases hq : c.qbufOk <;>
    simp [loopBody, State.emit, not_le.mpr h, hd, hr, hf, hq, fwrite_count_eq]

/-! ## Reasoning principles for the loop -/

/-- Case analysis on the six ways through the loop body. -/
theorem loopBody_elim (D : Int) (lt : Int → Tm) (c : CycleEnv) (s : State)
    (P : State × Flow → Prop)
    (hdur : D ≤ difftime c.now s.start_time →
      P ({ s with now := c.now, log := s.log ++ [Event.checkTime c.now] }, Flow.breakDuration))
    (hdq : difftime c.now s.start_time < D → c.dqbuf = none →
      P ({ s with now := c.now,
                  log := s.log ++ [Event.checkTime c.now, Event.dqbuf none] }, Flow.next))
    (hshort : ∀ i, difftime c.now s.start_time < D → c.dqbuf = some i →
      (readInto s.frame FRAME_SIZE c.readData).2 ≠ (FRAME_SIZE : Int) →
      P ({ s with now := c.now,
                  frame := (readInto s.frame FRAME_SIZE c.readData).1,
                  log := s.log ++ [Event.checkTime c.now, Event.dqbuf (some i),
                    Event.read FRAME_SIZE (readInto s.frame FRAME_SIZE c.readData).2 c.readDone,
                    Event.qbuf i c.qbufOk] }, Flow.next))
    (hnofile : ∀ i, difftime c.now s.start_time < D → c.dqbuf = some i →
      (readInto s.frame FRAME_SIZE c.readData).2 = (FRAME_SIZE : Int) → c.fopenOk = false →
      P ({ s with now := c.now,
                  frame := (readInto s.frame FRAME_SIZE c.readData).1,
                  log := s.log ++ [Event.checkTime c.now, Event.dqbuf (some i),
                    Event.read FRAME_SIZE FRAME_SIZE c.readDone,
                    Event.fopen (strftime (lt c.now)) false,
                    Event.qbuf i c.qbufOk] }, Flow.next))
    (hsaved : ∀ i, difftime c.now s.start_time < D → c.dqbuf = some i →
      (readInto s.frame FRAME_SIZE c.readData).2 = (FRAME_SIZE : Int) → c.fopenOk = true →
      c.qbufOk = true →
      P ({ s with now := c.now,
                  frame := (readInto s.frame FRAME_SIZE c.readData).1,
                  files := fsWrite s.files (strftime (lt c.now))
                    ((readInto s.frame FRAME_SIZE c.readData).1.take FRAME_SIZE),
                  log := s.log ++ [Event.checkTime c.now, Event.dqbuf (some i),
                    Event.read FRAME_SIZE FRAME_SIZE c.readDone,
                    Event.fopen (strftime (lt c.now)) true,
                    Event.fwrite ((readInto s.frame FRAME_SIZE c.readData).1.take FRAME_SIZE),
                    Event.fclose,
                    Event.qbuf i true,
                    Event.usleep 111111] }, Flow.next))
    (hrequeue : ∀ i, difftime c.now s.start_time < D → c.dqbuf = some i →
      (readInto s.frame FRAME_SIZE c.readData).2 = (FRAME_SIZE : Int) → c.fopenOk = true →
      c.qbufOk = false →
      P ({ s with now := c.now,
                  frame := (readInto s.frame FRAME_SIZE c.readData).1,
                  files := fsWrite s.files (strftime (lt c.now))
                    ((readInto s.frame FRAME_SIZE c.readData).1.take FRAME_SIZE),
                  log := s.log ++ [Event.checkTime c.now, Event.dqbuf (some i),
                    Event.read FRAME_SIZE FRAME_SIZE c.readDone,
                    Event.fopen (strftime (lt c.now)) true,
                    Event.fwrite ((readInto s.frame FRAME_SIZE c.readData).1.take FRAME_SIZE),
                    Event.fclose,
                    Event.qbuf i false] }, Flow.breakRequeue)) :
    P (loopBody D lt c s) := by
  by_cases h : difftime c.now s.start_time < D
  · cases hd : c.dqbuf with
    | none => rw [loopBody_dqfail D lt c s h hd]; exact hdq h hd
    | some i =>
      by_cases hr : (readInto s.frame FRAME_SIZE c.readData).2 = (FRAME_SIZE : Int)
      · cases hf : c.fopenOk with
        | false => rw [loopBody_nofile D lt c s i h hd hr hf]; exact hnofile i h hd hr hf
        | true =>
          rw [loopBody_saved D lt c s i h hd hr hf]
          cases hq : c.qbufOk with
          | false => simpa [hq] using hrequeue i h hd hr hf hq
          | true => simpa [hq] using hsaved i h hd hr hf hq
      · rw [loopBody_short D lt c s i h hd hr]; exact hshort i h hd hr
  · rw [loopBody_duration D lt c s (not_lt.mp h)]; exact hdur (not_lt.mp h)

theorem loop_nil (D : Int) (lt : Int → Tm) (s : State) : loop D lt [] s = (s, none) := rfl

theorem loop_cons_next (D : Int) (lt : Int → Tm) (c : CycleEnv) (cs : List CycleEnv) (s : State)
    (h : (loopBody D lt c s).2 = Flow.next) :
    loop D lt (c :: cs) s = loop D lt cs (loopBody D lt c s).1 := by
  rw [loop]
  cases hb : loopBody D lt c s with
  | mk s1 fl =>
    rw [hb] at h
    simp only at h
    subst h
    rfl

theorem loop_cons_stop (D : Int) (lt : Int → Tm) (c : CycleEnv) (cs : List CycleEnv) (s : State)
    (h : (loopBody D lt c s).2 ≠ Flow.next) :
    loop D lt (c :: cs) s = ((loopBody D lt c s).1, some (loopBody D lt c s).2) := by
  rw [loop]
  cases hb : loopBody D lt c s with
  | mk s1 fl =>
    rw [hb] at h
    simp only at h
    cases fl with
    | next => exact absurd rfl h
    | breakDuration => rfl
    | breakRequeue => rfl

/-- Induction over the loop: an invariant kept by every pass that continues, and
a postcondition established by every pass that breaks. -/
theorem loop_induction (D : Int) (lt : Int → Tm) (Inv : State → Prop)
    (Post : State → Flow → Prop)
    (hnext : ∀ c s, Inv s → (loopBody D lt c s).2 = Flow.next → Inv (loopBody D lt c s).1)
    (hstop : ∀ c s, Inv s → (loopBody D lt c s).2 ≠ Flow.next →
      Post (loopBody D lt c s).1 (loopBody D lt c s).2) :
    ∀ (cs : List CycleEnv) (s : State), Inv s →
      ((loop D lt cs s).2 = none → Inv (loop D lt cs s).1) ∧
      (∀ fl, (loop D lt cs s).2 = some fl → Post (loop D lt cs s).1 fl) := by
  intro cs
  induction cs with
  | nil =>
    intro s hs
    rw [loop_nil]
    exact ⟨fun _ => hs, fun fl h => by cases h⟩
  | cons c cs ih =>
    intro s hs
    by_cases h : (loopBody D lt c s).2 = Flow.next
    · rw [loop_cons_next D lt c cs s h]
      exact ih _ (hnext c s hs h)
    · rw [loop_cons_stop D lt c cs s h]
      refine ⟨fun hc => ?_, fun fl hfl => ?_⟩
      · cases hc
      · simp only [Option.some.injEq] at hfl
        subst hfl
        exact hstop c s hs h

/-- An invariant kept by every pass through the body holds when the loop is left
or the answers run out. -/
theorem loop_preserves (D : Int) (lt : Int → Tm) (P : State → Prop)
    (hstep : ∀ c s, P s → P (loopBody D lt c s).1) :
    ∀ (cs : List CycleEnv) (s : State), P s → P (loop D lt cs s).1 := by
  intro cs s hs
  have h := loop_induction D lt P (fun s1 _ => P s1)
    (fun c s0 h0 _ => hstep c s0 h0) (fun c s0 h0 _ => hstep c s0 h0) cs s hs
  cases hfl : (loop D lt cs s).2 with
  | none => exact h.1 hfl
  | some fl => exact h.2 fl hfl

/-! ## `main`, exit path by exit path -/

theorem loop_ne_next (D : Int) (lt : Int → Tm) :
    ∀ (cs : List CycleEnv) (s : State), (loop D lt cs s).2 ≠ some Flow.next := by
  intro cs
  induction cs with
  | nil => intro s; rw [loop_nil]; simp
  | cons c cs ih =>
    intro s
    by_cases h : (loopBody D lt c s).2 = Flow.next
    · rw [loop_cons_next D lt c cs s h]; exact ih _
    · rw [loop_cons_stop D lt c cs s h]
      simpa using h

theorem mainWith_videoOpenFailed (D : Int) (env : Env) (h1 : env.openVideo = false) :
    mainWith D env
      = { state := { State.init with log := [Event.openDev Dev.video false] },
          result := some (-1, ExitPath.videoOpenFailed) } := by
  simp [mainWith, State.emit, State.init, h1]

theorem mainWith_formatRejected (D : Int) (env : Env) (h1 : env.openVideo = true)
    (h2 : env.sFmt = false) :
    mainWith D env
      = { state := { State.init with
            log := [Event.openDev Dev.video true, Event.s_fmt FRAME_WIDTH FRAME_HEIGHT false,
                    Event.close Dev.video] },
          result := some (-1, ExitPath.formatRejected) } := by
  simp [mainWith, State.emit, State.init, h1, h2]

theorem mainWith_i2cOpenFailed (D : Int) (env : Env) (h1 : env.openVideo = true)
    (h2 : env.sFmt = true) (h3 : env.openI2c = false) :
    mainWith D env
      = { state := { State.init with
            log := [Event.openDev Dev.video true, Event.s_fmt FRAME_WIDTH FRAME_HEIGHT true,
                    Event.openDev Dev.i2c false, Event.close Dev.video] },
          result := some (-1, ExitPath.i2cOpenFailed) } := by
  simp [mainWith, State.emit, State.init, h1, h2, h3]

theorem mainWith_streamOnRejected (D : Int) (env : Env) (h1 : env.openVideo = true)
    (h2 : env.sFmt = true) (h3 : env.openI2c = true) (h4 : env.streamOn = false) :
    mainWith D env
      = { state := { State.init with
            log := [Event.openDev Dev.video true, Event.s_fmt FRAME_WIDTH FRAME_HEIGHT true,
                    Event.openDev Dev.i2c true,
                    Event.i2c_rdwr { msgs := [{ addr := 0x2A, flags := 0, len := 4,
                                                buf := [1, 4, 0, 0] }], nmsgs := 1 } env.agcOk,
                    Event.i2c_rdwr { msgs := [{ addr := 0x2A, flags := 0, len := 4,
                                                buf := [2, 4, 0, 1] }], nmsgs := 1 } env.radOk,
                    Event.streamon false, Event.close Dev.i2c, Event.close Dev.video] },
          result := some (-1, ExitPath.streamOnRejected) } := by
  have e1 : 260 &&& 255 = 4 := by decide
  have e2 : 2 &&& 255 = 2 := by decide
  have e3 : 516 &&& 255 = 4 := by decide
  cases ha : env.agcOk <;> cases hb : env.radOk <;>
    simp [mainWith, lepton_cci_write, State.emit, State.init, h1, h2, h3, h4, ha, hb, e1, e2, e3,
      LEPTON_I2C_ADDR, LEPTON_CCI_SET_AGC_ENABLE, LEPTON_CCI_SET_RADIOMETRY_ENABLE]

theorem mainWith_streaming (D : Int) (env : Env) (h1 : env.openVideo = true)
    (h2 : env.sFmt = true) (h3 : env.openI2c = true) (h4 : env.streamOn = true) :
    mainWith D env
      = match loop D env.localtime env.cycles (streamState env) with
        | (s1, none) => { state := s1, result := none }
        | (s1, some Flow.breakRequeue) =>
          { state := cleanup env.streamOff s1, result := some (0, ExitPath.requeueFailed) }
        | (s1, some _) =>
          { state := cleanup env.streamOff s1, result := some (0, ExitPath.durationReached) } := by
  have e1 : 260 &&& 255 = 4 := by decide
  have e2 : 2 &&& 255 = 2 := by decide
  have e3 : 516 &&& 255 = 4 := by decide
  cases ha : env.agcOk <;> cases hb : env.radOk <;>
    simp [mainWith, lepton_cci_write, State.emit, State.init, h1, h2, h3, h4, ha, hb, e1, e2, e3,
      streamState, LEPTON_I2C_ADDR, LEPTON_CCI_SET_AGC_ENABLE, LEPTON_CCI_SET_RADIOMETRY_ENABLE]

theorem mainWith_running (D : Int) (env : Env) (h1 : env.openVideo = true)
    (h2 : env.sFmt = true) (h3 : env.openI2c = true) (h4 : env.streamOn = true)
    (hl : (loop D env.localtime env.cycles (streamState env)).2 = none) :
    mainWith D env
      = { state := (loop D env.localtime env.cycles (streamState env)).1, result := none } := by
  rw [mainWith_streaming D env h1 h2 h3 h4]
  cases hr : loop D env.localtime env.cycles (streamState env) with
  | mk s1 fl =>
    rw [hr] at hl
    simp only at hl
    subst hl
    rfl

theorem mainWith_requeueFailed (D : Int) (env : Env) (h1 : env.openVideo = true)
    (h2 : env.sFmt = true) (h3 : env.openI2c = true) (h4 : env.streamOn = true)
    (hl : (loop D env.localtime env.cycles (streamState env)).2 = some Flow.breakRequeue) :
    mainWith D env
      = { state := cleanup env.streamOff (loop D env.localtime env.cycles (streamState env)).1,
          result := some (0, ExitPath.requeueFailed) } := by
  rw [mainWith_streaming D env h1 h2 h3 h4]
  cases hr : loop D env.localtime env.cycles (streamState env) with
  | mk s1 fl =>
    rw [hr] at hl
    simp only at hl
    subst hl
    rfl

theorem mainWith_durationReached (D : Int) (env : Env) (h1 : env.openVideo = true)
    (h2 : env.sFmt = true) (h3 : env.openI2c = true) (h4 : env.streamOn = true)
    (hl : (loop D env.localtime env.cycles (streamState env)).2 = some Flow.breakDuration) :
    mainWith D env
      = { state := cleanup env.streamOff (loop D env.localtime env.cycles (streamState env)).1,
          result := some (0, ExitPath.durationReached) } := by
  rw [mainWith_streaming D env h1 h2 h3 h4]
  cases hr : loop D env.localtime env.cycles (streamState env) with
  | mk s1 fl =>
    rw [hr] at hl
    simp only at hl
    subst hl
    rfl

theorem mainWith_of_loop_break (D : Int) (env : Env) (S : State) (h1 : env.openVideo = true)
    (h2 : env.sFmt = true) (h3 : env.openI2c = true) (h4 : env.streamOn = true)
    (hl : loop D env.localtime env.cycles (streamState env) = (S, some Flow.breakDuration)) :
    mainWith D env
      = { state := cleanup env.streamOff S, result := some (0, ExitPath.durationReached) } := by
  rw [mainWith_durationReached D env h1 h2 h3 h4 (by rw [hl]), hl]

theorem mainWith_of_loop_requeue (D : Int) (env : Env) (S : State) (h1 : env.openVideo = true)
    (h2 : env.sFmt = true) (h3 : env.openI2c = true) (h4 : env.streamOn = true)
    (hl : loop D env.localtime env.cycles (streamState env) = (S, some Flow.breakRequeue)) :
    mainWith D env
      = { state := cleanup env.streamOff S, result := some (0, ExitPath.requeueFailed) } := by
  rw [mainWith_requeueFailed D env h1 h2 h3 h4 (by rw [hl]), hl]

/-- The seven ways a run of `main` can stand: four set-up failures, loop still
running, loop left by a failed requeue, loop left by the duration check. -/
theorem mainWith_elim (D : Int) (env : Env) (P : Run → Prop)
    (hvideo : env.openVideo = false →
      P { state := { State.init with log := [Event.openDev Dev.video false] },
          result := some (-1, ExitPath.videoOpenFailed) })
    (hfmt : env.openVideo = true → env.sFmt = false →
      P { state := { State.init with
            log := [Event.openDev Dev.video true, Event.s_fmt FRAME_WIDTH FRAME_HEIGHT false,
                    Event.close Dev.video] },
          result := some (-1, ExitPath.formatRejected) })
    (hi2c : env.openVideo = true → env.sFmt = true → env.openI2c = false →
      P { state := { State.init with
            log := [Event.openDev Dev.video true, Event.s_fmt FRAME_WIDTH FRAME_HEIGHT true,
                    Event.openDev Dev.i2c false, Event.close Dev.video] },
          result := some (-1, ExitPath.i2cOpenFailed) })
    (hon : env.openVideo = true → env.sFmt = true → env.openI2c = true →
      env.streamOn = false →
      P { state := { State.init with
            log := [Event.openDev Dev.video true, Event.s_fmt FRAME_WIDTH FRAME_HEIGHT true,
                    Event.openDev Dev.i2c true,
                    Event.i2c_rdwr { msgs := [{ addr := 0x2A, flags := 0, len := 4,
                                                buf := [1, 4, 0, 0] }], nmsgs := 1 } env.agcOk,
                    Event.i2c_rdwr { msgs := [{ addr := 0x2A, flags := 0, len := 4,
                                                buf := [2, 4, 0, 1] }], nmsgs := 1 } env.radOk,
                    Event.streamon false, Event.close Dev.i2c, Event.close Dev.video] },
          result := some (-1, ExitPath.streamOnRejected) })
    (hrun : env.openVideo = true → env.sFmt = true → env.openI2c = true →
      env.streamOn = true →
      (loop D env.localtime env.cycles (streamState env)).2 = none →
      P { state := (loop D env.localtime env.cycles (streamState env)).1, result := none })
    (hrq : env.openVideo = true → env.sFmt = true → env.openI2c = true →
      env.streamOn = true →
      (loop D env.localtime env.cycles (streamState env)).2 = some Flow.breakRequeue →
      P { state := cleanup env.streamOff (loop D env.localtime env.cycles (streamState env)).1,
          result := some (0, ExitPath.requeueFailed) })
    (hdur : env.openVideo = true → env.sFmt = true → env.openI2c = true →
      env.streamOn = true →
      (loop D env.localtime env.cycles (streamState env)).2 = some Flow.breakDuration →
      P { state := cleanup env.streamOff (loop D env.localtime env.cycles (streamState env)).1,
          result := some (0, ExitPath.durationReached) }) :
    P (mainWith D env) := by
  cases h1 : env.openVideo with
  | false => rw [mainWith_videoOpenFailed D env h1]; exact hvideo h1
  | true =>
    cases h2 : env.sFmt with
    | false => rw [mainWith_formatRejected D env h1 h2]; exact hfmt h1 h2
    | true =>
      cases h3 : env.openI2c with
      | false => rw [mainWith_i2cOpenFailed D env h1 h2 h3]; exact hi2c h1 h2 h3
      | true =>
        cases h4 : env.streamOn with
        | false => rw [mainWith_streamOnRejected D env h1 h2 h3 h4]; exact hon h1 h2 h3 h4
        | true =>
          cases hl : (loop D env.localtime env.cycles (streamState env)).2 with
          | none => rw [mainWith_running D env h1 h2 h3 h4 hl]; exact hrun h1 h2 h3 h4 hl
          | some fl =>
            cases fl with
            | next => exact absurd hl (loop_ne_next D env.localtime env.cycles (streamState env))
            | breakDuration =>
              rw [mainWith_durationReached D env h1 h2 h3 h4 hl]; exact hdur h1 h2 h3 h4 hl
            | breakRequeue =>
              rw [mainWith_requeueFailed D env h1 h2 h3 h4 hl]; exact hrq h1 h2 h3 h4 hl

/-! ## Requeue accounting -/

theorem loopBody_requeue_balance (D : Int) (lt : Int → Tm) (c : CycleEnv) (s : State) :
    ∃ evs, (loopBody D lt c s).1.log = s.log ++ evs ∧
      evs.countP Event.isQbuf = evs.countP Event.isDqbufOk ∧
      ((∀ i, Event.dqbuf (some i) ∉ evs) → evs.filter Event.isQbuf = []) ∧
      (∀ i, Event.dqbuf (some i) ∈ evs → evs.filter Event.isQbuf = [Event.qbuf i c.qbufOk]) := by
  refine loopBody_elim D lt c s
    (fun r => ∃ evs, r.1.log = s.log ++ evs ∧
      evs.countP Event.isQbuf = evs.countP Event.isDqbufOk ∧
      ((∀ i, Event.dqbuf (some i) ∉ evs) → evs.filter Event.isQbuf = []) ∧
      (∀ i, Event.dqbuf (some i) ∈ evs → evs.filter Event.isQbuf = [Event.qbuf i c.qbufOk]))
    ?_ ?_ ?_ ?_ ?_ ?_
  · intro _
    exact ⟨_, rfl, by simp [Event.isQbuf, Event.isDqbufOk], by simp [Event.isQbuf], by simp⟩
  · intro _ _
    exact ⟨_, rfl, by simp [Event.isQbuf, Event.isDqbufOk], by simp [Event.isQbuf], by simp⟩
  · intro i _ _ _
    refine ⟨_, rfl, by simp [Event.isQbuf, Event.isDqbufOk], ?_, ?_⟩
    · intro h; exact absurd (by simp) (h i)
    · intro j hj
      have : j = i := by simpa using hj
      subst this
      simp [Event.isQbuf]
  · intro i _ _ _ _
    refine ⟨_, rfl, by simp [Event.isQbuf, Event.isDqbufOk], ?_, ?_⟩
    · intro h; exact absurd (by simp) (h i)
    · intro j hj
      have : j = i := by simpa using hj
      subst this
      simp [Event.isQbuf]
  · intro i _ _ _ _ hq
    refine ⟨_, rfl, by simp [Event.isQbuf, Event.isDqbufOk], ?_, ?_⟩
    · intro h; exact absurd (by simp) (h i)
    · intro j hj
      have : j = i := by simpa using hj
      subst this
      simp [Event.isQbuf, hq]
  · intro i _ _ _ _ hq
    refine ⟨_, rfl, by simp [Event.isQbuf, Event.isDqbufOk], ?_, ?_⟩
    · intro h; exact absurd (by simp) (h i)
    · intro j hj
      have : j = i := by simpa using hj
      subst this
      simp [Event.isQbuf, hq]

theorem loop_requeue_balance (D : Int) (lt : Int → Tm) (cs : List CycleEnv) (s : State)
    (h : s.log.countP Event.isQbuf = s.log.countP Event.isDqbufOk) :
    (loop D lt cs s).1.log.countP Event.isQbuf
      = (loop D lt cs s).1.log.countP Event.isDqbufOk := by
  refine loop_preserves D lt
    (fun s => s.log.countP Event.isQbuf = s.log.countP Event.isDqbufOk) ?_ cs s h
  intro c s0 h0
  obtain ⟨evs, hlog, hbal, _, _⟩ := loopBody_requeue_balance D lt c s0
  simp only [hlog, List.countP_append, h0, hbal]

/-! ## What the loop adds to the log -/

theorem loopBody_log_kind (D : Int) (lt : Int → Tm) (c : CycleEnv) (s : State) :
    (loopBody D lt c s).1.start_time = s.start_time ∧
    ∃ evs, (loopBody D lt c s).1.log = s.log ++ evs ∧ ∀ e ∈ evs, e.loopKind = true := by
  refine loopBody_elim D lt c s
    (fun r => r.1.start_time = s.start_time ∧
      ∃ evs, r.1.log = s.log ++ evs ∧ ∀ e ∈ evs, e.loopKind = true)
    ?_ ?_ ?_ ?_ ?_ ?_
  · intro _; exact ⟨rfl, _, rfl, by simp [Event.loopKind]⟩
  · intro _ _; exact ⟨rfl, _, rfl, by simp [Event.loopKind]⟩
  · intro i _ _ _; exact ⟨rfl, _, rfl, by simp [Event.loopKind]⟩
  · intro i _ _ _ _; exact ⟨rfl, _, rfl, by simp [Event.loopKind]⟩
  · intro i _ _ _ _ _; exact ⟨rfl, _, rfl, by simp [Event.loopKind]⟩
  · intro i _ _ _ _ _; exact ⟨rfl, _, rfl, by simp [Event.loopKind]⟩

theorem loop_log_kind (D : Int) (lt : Int → Tm) (cs : List CycleEnv) (s : State) :
    (loop D lt cs s).1.start_time = s.start_time ∧
    ∃ evs, (loop D lt cs s).1.log = s.log ++ evs ∧ ∀ e ∈ evs, e.loopKind = true := by
  refine loop_preserves D lt
    (fun s1 => s1.start_time = s.start_time ∧
      ∃ evs, s1.log = s.log ++ evs ∧ ∀ e ∈ evs, e.loopKind = true) ?_ cs s
    ⟨rfl, [], by simp, by simp⟩
  intro c s0 h0
  obtain ⟨hst, evs, hlog, hk⟩ := h0
  obtain ⟨hst1, evs1, hlog1, hk1⟩ := loopBody_log_kind D lt c s0
  refine ⟨hst1.trans hst, evs ++ evs1, ?_, ?_⟩
  · rw [hlog1, hlog, List.append_assoc]
  · intro e he
    rcases List.mem_append.mp he with h | h
    · exact hk e h
    · exact hk1 e h

/-- Shape of the log of a run in which every set-up step succeeded: the set-up
events, then events of the loop, then either nothing (loop still running) or
the three clean-up events. -/
theorem mainWith_log_streaming (D : Int) (env : Env) (h1 : env.openVideo = true)
    (h2 : env.sFmt = true) (h3 : env.openI2c = true) (h4 : env.streamOn = true) :
    ∃ evs tail, (mainWith D env).state.log = (streamState env).log ++ evs ++ tail ∧
      (∀ e ∈ evs, e.loopKind = true) ∧
      (((mainWith D env).result = none ∧ tail = []) ∨
       ((∃ p, (mainWith D env).result = some (0, p)) ∧
        tail = [Event.streamoff env.streamOff, Event.close Dev.i2c, Event.close Dev.video])) := by
  obtain ⟨_, evs, hlog, hk⟩ := loop_log_kind D env.localtime env.cycles (streamState env)
  cases hl : (loop D env.localtime env.cycles (streamState env)).2 with
  | none =>
    rw [mainWith_running D env h1 h2 h3 h4 hl]
    exact ⟨evs, [], by simp [hlog], hk, Or.inl ⟨rfl, rfl⟩⟩
  | some fl =>
    cases fl with
    | next => exact absurd hl (loop_ne_next D env.localtime env.cycles (streamState env))
    | breakDuration =>
      rw [mainWith_durationReached D env h1 h2 h3 h4 hl]
      exact ⟨evs, _, by simp [cleanup, State.emit, hlog], hk, Or.inr ⟨⟨_, rfl⟩, rfl⟩⟩
    | breakRequeue =>
      rw [mainWith_requeueFailed D env h1 h2 h3 h4 hl]
      exact ⟨evs, _, by simp [cleanup, State.emit, hlog], hk, Or.inr ⟨⟨_, rfl⟩, rfl⟩⟩

/-! ## Running the loop on given answers -/

theorem loop_step_next (D : Int) (lt : Int → Tm) (c : CycleEnv) (cs : List CycleEnv)
    (s s1 : State) (h : loopBody D lt c s = (s1, Flow.next)) :
    loop D lt (c :: cs) s = loop D lt cs s1 := by
  rw [loop_cons_next D lt c cs s (by rw [h]), h]

theorem loop_step_stop (D : Int) (lt : Int → Tm) (c : CycleEnv) (cs : List CycleEnv)
    (s s1 : State) (fl : Flow) (h : loopBody D lt c s = (s1, fl)) (hfl : fl ≠ Flow.next) :
    loop D lt (c :: cs) s = (s1, some fl) := by
  rw [loop_cons_stop D lt c cs s (by rw [h]; exact hfl), h]

theorem readInto_fullFrame (frame : List Nat) (b : Nat) :
    readInto frame FRAME_SIZE (some (fullFrame b))
      = (fullFrame b ++ frame.drop FRAME_SIZE, (FRAME_SIZE : Int)) := by
  have h1 : (fullFrame b).take FRAME_SIZE = fullFrame b := by
    apply List.take_of_length_le
    simp [fullFrame]
  have h2 : (fullFrame b).length = FRAME_SIZE := by simp [fullFrame]
  simp only [readInto, h1, h2]

theorem take_fullFrame_append (b : Nat) (rest : List Nat) :
    (fullFrame b ++ rest).take FRAME_SIZE = fullFrame b := by
  have h2 : (fullFrame b).length = FRAME_SIZE := by simp [fullFrame]
  rw [List.take_append_of_le_length (by omega), List.take_of_length_le (by omega)]

/-- A pass whose answers are all successes with a whole frame ready. -/
theorem loopBody_fullFrame (D : Int) (lt : Int → Tm) (c : CycleEnv) (s : State) (i b : Nat)
    (h : difftime c.now s.start_time < D) (hd : c.dqbuf = some i)
    (hdata : c.readData = some (fullFrame b)) (hf : c.fopenOk = true) :
    loopBody D lt c s
      = ({ s with now := c.now,
                  frame := fullFrame b ++ s.frame.drop FRAME_SIZE,
                  files := fsWrite s.files (strftime (lt c.now)) (fullFrame b),
                  log := s.log ++ ([Event.checkTime c.now, Event.dqbuf (some i),
                    Event.read FRAME_SIZE FRAME_SIZE c.readDone,
                    Event.fopen (strftime (lt c.now)) true,
                    Event.fwrite (fullFrame b),
                    Event.fclose,
                    Event.qbuf i c.qbufOk]
                    ++ (if c.qbufOk then [Event.usleep 111111] else [])) },
         if c.qbufOk then Flow.next else Flow.breakRequeue) := by
  have hr : (readInto s.frame FRAME_SIZE c.readData).2 = (FRAME_SIZE : Int) := by
    rw [hdata, readInto_fullFrame]
  rw [loopBody_saved D lt c s i h hd hr hf, hdata, readInto_fullFrame]
  simp only [take_fullFrame_append]

/-! ## Output files -/

theorem fsWrite_names (files : List (String × List Nat)) (name : String) (bytes : List Nat) :
    (fsWrite files name bytes).map Prod.fst
      = name :: (files.map Prod.fst).filter (fun n => n ≠ name) := by
  simp only [fsWrite, List.map_cons, List.filter_map]
  rfl

theorem FilesInv_same_files (s s1 : State) (evs : List Event) (h : FilesInv s)
    (hf : s1.files = s.files) (hl : s1.log = s.log ++ evs) (hn : savedNames evs = []) :
    FilesInv s1 := by
  obtain ⟨h1, h2, h3⟩ := h
  refine ⟨by rw [hf]; exact h1, ?_, ?_⟩
  · intro name
    rw [hf, hl, savedNames, List.filterMap_append]
    have : List.filterMap Event.savedName evs = [] := hn
    rw [this, List.append_nil]
    exact h2 name
  · intro f hmem
    rw [hf] at hmem
    rw [hl]
    exact ⟨(h3 f hmem).1, List.mem_append_left _ (h3 f hmem).2⟩

theorem FilesInv_saved (s s1 : State) (evs : List Event) (name : String) (bytes : List Nat)
    (h : FilesInv s) (hf : s1.files = fsWrite s.files name bytes) (hl : s1.log = s.log ++ evs)
    (hn : savedNames evs = [name]) (hb : bytes.length = FRAME_SIZE)
    (hw : Event.fwrite bytes ∈ evs) :
    FilesInv s1 := by
  obtain ⟨h1, h2, h3⟩ := h
  refine ⟨?_, ?_, ?_⟩
  · rw [hf, fsWrite_names]
    refine List.nodup_cons.mpr ⟨?_, h1.filter _⟩
    simp [List.mem_filter]
  · intro n
    rw [hf, fsWrite_names, hl, savedNames, List.filterMap_append]
    have : List.filterMap Event.savedName evs = [name] := hn
    rw [this]
    have h2n := h2 n
    rw [savedNames] at h2n
    simp only [List.mem_cons, List.mem_filter, List.mem_append, List.mem_singleton,
      List.not_mem_nil, or_false, ← h2n, decide_eq_true_eq]
    by_cases hnn : n = name
    · simp [hnn]
    · simp [hnn]
  · intro f hmem
    rw [hf, fsWrite] at hmem
    rw [hl]
    rcases List.mem_cons.mp hmem with h | h
    · subst h
      exact ⟨hb, List.mem_append_right _ hw⟩
    · have hm := (List.mem_filter.mp h).1
      exact ⟨(h3 f hm).1, List.mem_append_left _ (h3 f hm).2⟩

theorem loopBody_FilesInv (D : Int) (lt : Int → Tm) (c : CycleEnv) (s : State)
    (h : FilesInv s) : FilesInv (loopBody D lt c s).1 := by
  refine loopBody_elim D lt c s (fun r => FilesInv r.1) ?_ ?_ ?_ ?_ ?_ ?_
  · intro _
    exact FilesInv_same_files s _ _ h rfl rfl (by simp [savedNames, Event.savedName])
  · intro _ _
    exact FilesInv_same_files s _ _ h rfl rfl (by simp [savedNames, Event.savedName])
  · intro i _ _ _
    exact FilesInv_same_files s _ _ h rfl rfl (by simp [savedNames, Event.savedName])
  · intro i _ _ _ _
    exact FilesInv_same_files s _ _ h rfl rfl (by simp [savedNames, Event.savedName])
  · intro i _ _ hr _ _
    obtain ⟨d, _, hlen, htake⟩ := readInto_full _ _ _ hr
    exact FilesInv_saved s _ _ _ _ h rfl rfl (by simp [savedNames, Event.savedName])
      (by rw [htake]; exact hlen) (by simp)
  · intro i _ _ hr _ _
    obtain ⟨d, _, hlen, htake⟩ := readInto_full _ _ _ hr
    exact FilesInv_saved s _ _ _ _ h rfl rfl (by simp [savedNames, Event.savedName])
      (by rw [htake]; exact hlen) (by simp)

theorem mainWith_FilesInv (D : Int) (env : Env) : FilesInv (mainWith D env).state := by
  have h0 : FilesInv (streamState env) := by
    refine ⟨by simp [streamState], ?_, by simp [streamState]⟩
    intro name
    simp [streamState, savedNames, Event.savedName]
  have hl := loop_preserves D env.localtime FilesInv
    (fun c s hs => loopBody_FilesInv D env.localtime c s hs) env.cycles (streamState env) h0
  have hc : ∀ s, FilesInv s → FilesInv (cleanup env.streamOff s) := by
    intro s hs
    exact FilesInv_same_files s _
      [Event.streamoff env.streamOff, Event.close Dev.i2c, Event.close Dev.video] hs rfl
      (by simp [cleanup, State.emit]) (by simp [savedNames, Event.savedName])
  refine mainWith_elim D env (fun r => FilesInv r.state) ?_ ?_ ?_ ?_ ?_ ?_ ?_
  · intro _
    exact ⟨by simp [State.init], by simp [State.init, savedNames, Event.savedName],
      by simp [State.init]⟩
  · intro _ _
    exact ⟨by simp [State.init], by simp [State.init, savedNames, Event.savedName],
      by simp [State.init]⟩
  · intro _ _ _
    exact ⟨by simp [State.init], by simp [State.init, savedNames, Event.savedName],
      by simp [State.init]⟩
  · intro _ _ _ _
    exact ⟨by simp [State.init], by simp [State.init, savedNames, Event.savedName],
      by simp [State.init]⟩
  · intro _ _ _ _ _; exact hl
  · intro _ _ _ _ _; exact hc _ hl
  · intro _ _ _ _ _; exact hc _ hl

/-! ## Short reads -/

theorem readInto_three (frame : List Nat) :
    (readInto frame FRAME_SIZE (some [1, 2, 3])).2 = 3 := by
  have h : ([1, 2, 3] : List Nat).take FRAME_SIZE = [1, 2, 3] :=
    List.take_of_length_le (by decide)
  simp only [readInto, h]
  rfl

/-! ## Duration check -/

theorem append_cons_unique {α : Type} (P : α → Prop) :
    ∀ (L R a b : List α) (x y : α), (∀ e ∈ L, ¬ P e) → (∀ e ∈ R, ¬ P e) → P y →
      L ++ x :: R = a ++ y :: b → a = L ∧ y = x ∧ b = R := by
  intro L
  induction L with
  | nil =>
    intro R a b x y _ hR hy h
    cases a with
    | nil =>
      simp only [List.nil_append, List.cons.injEq] at h
      exact ⟨rfl, h.1.symm, h.2.symm⟩
    | cons a0 a1 =>
      simp only [List.nil_append, List.cons_append, List.cons.injEq] at h
      exact absurd hy (hR y (by rw [h.2]; simp))
  | cons l L ih =>
    intro R a b x y hL hR hy h
    cases a with
    | nil =>
      simp only [List.nil_append, List.cons_append, List.cons.injEq] at h
      exact absurd hy (by rw [← h.1]; exact hL l (by simp))
    | cons a0 a1 =>
      simp only [List.cons_append, List.cons.injEq] at h
      obtain ⟨h1, h2, h3⟩ := ih R a1 b x y (fun e he => hL e (List.mem_cons_of_mem _ he)) hR hy h.2
      exact ⟨by rw [h.1, h1], h2, h3⟩

theorem noCheck_append (D T0 : Int) (log evs : List Event) (t : Int)
    (hn : NoCheckSatisfied D T0 log) (ht : difftime t T0 < D)
    (hevs : ∀ u, Event.checkTime u ∈ evs → u = t) :
    NoCheckSatisfied D T0 (log ++ evs) := by
  intro u hu
  rcases List.mem_append.mp hu with h | h
  · exact hn u h
  · rw [hevs u h]; exact ht

theorem noCheck_append_none (D T0 : Int) (log evs : List Event)
    (hn : NoCheckSatisfied D T0 log) (hevs : ∀ u, Event.checkTime u ∉ evs) :
    NoCheckSatisfied D T0 (log ++ evs) := by
  intro u hu
  rcases List.mem_append.mp hu with h | h
  · exact hn u h
  · exact absurd h (hevs u)

theorem loopBody_checks (D : Int) (lt : Int → Tm) (c : CycleEnv) (s : State) (T0 : Int)
    (hs : s.start_time = T0) (hn : NoCheckSatisfied D T0 s.log) :
    (loopBody D lt c s).1.start_time = T0 ∧
    ((loopBody D lt c s).2 = Flow.breakDuration →
      D ≤ difftime c.now T0 ∧ (loopBody D lt c s).1.log = s.log ++ [Event.checkTime c.now]) ∧
    ((loopBody D lt c s).2 ≠ Flow.breakDuration →
      NoCheckSatisfied D T0 (loopBody D lt c s).1.log) := by
  refine loopBody_elim D lt c s
    (fun r => r.1.start_time = T0 ∧
      (r.2 = Flow.breakDuration →
        D ≤ difftime c.now T0 ∧ r.1.log = s.log ++ [Event.checkTime c.now]) ∧
      (r.2 ≠ Flow.breakDuration → NoCheckSatisfied D T0 r.1.log))
    ?_ ?_ ?_ ?_ ?_ ?_
  · intro h
    rw [hs] at h
    exact ⟨hs, fun _ => ⟨h, rfl⟩, fun hne => absurd rfl hne⟩
  · intro h _
    rw [hs] at h
    exact ⟨hs, fun hfl => (by cases hfl),
      fun _ => noCheck_append D T0 _ _ c.now hn h (by simp)⟩
  · intro i h _ _
    rw [hs] at h
    exact ⟨hs, fun hfl => (by cases hfl),
      fun _ => noCheck_append D T0 _ _ c.now hn h (by simp)⟩
  · intro i h _ _ _
    rw [hs] at h
    exact ⟨hs, fun hfl => (by cases hfl),
      fun _ => noCheck_append D T0 _ _ c.now hn h (by simp)⟩
  · intro i h _ _ _ _
    rw [hs] at h
    exact ⟨hs, fun hfl => (by cases hfl),
      fun _ => noCheck_append D T0 _ _ c.now hn h (by simp)⟩
  · intro i h _ _ _ _
    rw [hs] at h
    exact ⟨hs, fun hfl => (by cases hfl),
      fun _ => noCheck_append D T0 _ _ c.now hn h (by simp)⟩

theorem loop_checks (D : Int) (lt : Int → Tm) (T0 : Int) (cs : List CycleEnv) (s : State)
    (hs : s.start_time = T0) (hn : NoCheckSatisfied D T0 s.log) :
    ((loop D lt cs s).2 = some Flow.breakDuration →
      ∃ L t, (loop D lt cs s).1.log = L ++ [Event.checkTime t] ∧
        NoCheckSatisfied D T0 L ∧ D ≤ difftime t T0) ∧
    ((loop D lt cs s).2 ≠ some Flow.breakDuration →
      NoCheckSatisfied D T0 (loop D lt cs s).1.log) := by
  have h := loop_induction D lt
    (fun s1 => s1.start_time = T0 ∧ NoCheckSatisfied D T0 s1.log)
    (fun s1 fl =>
      (fl = Flow.breakDuration →
        ∃ L t, s1.log = L ++ [Event.checkTime t] ∧ NoCheckSatisfied D T0 L ∧ D ≤ difftime t T0) ∧
      (fl ≠ Flow.breakDuration → NoCheckSatisfied D T0 s1.log))
    ?_ ?_ cs s ⟨hs, hn⟩
  · cases hfl : (loop D lt cs s).2 with
    | none =>
      exact ⟨fun hc => (by cases hc), fun _ => (h.1 hfl).2⟩
    | some fl =>
      refine ⟨fun hc => (h.2 fl hfl).1 (by simpa using hc), fun hc => (h.2 fl hfl).2 ?_⟩
      intro hfl2
      exact hc (by rw [hfl2])
  · intro c s0 h0 hnext
    obtain ⟨a, _, b⟩ := loopBody_checks D lt c s0 T0 h0.1 h0.2
    exact ⟨a, b (by rw [hnext]; decide)⟩
  · intro c s0 h0 _
    obtain ⟨_, a, b⟩ := loopBody_checks D lt c s0 T0 h0.1 h0.2
    exact ⟨fun hfl => ⟨s0.log, c.now, (a hfl).2, h0.2, (a hfl).1⟩, b⟩

theorem chain_append_check (D T0 : Int) (log rest : List Event) (t : Int)
    (hc : List.Chain' (CheckedDequeue D T0) log)
    (hr : List.Chain' (CheckedDequeue D T0) (Event.checkTime t :: rest)) :
    List.Chain' (CheckedDequeue D T0) (log ++ Event.checkTime t :: rest) := by
  refine List.Chain'.append hc hr ?_
  intro x _ y hy r hyr
  simp only [List.head?_cons, Option.mem_def, Option.some.injEq] at hy
  rw [← hy] at hyr
  cases hyr

theorem loopBody_chain (D : Int) (lt : Int → Tm) (c : CycleEnv) (s : State) (T0 : Int)
    (hs : s.start_time = T0) (hc : List.Chain' (CheckedDequeue D T0) s.log) :
    List.Chain' (CheckedDequeue D T0) (loopBody D lt c s).1.log := by
  refine loopBody_elim D lt c s
    (fun r => List.Chain' (CheckedDequeue D T0) r.1.log) ?_ ?_ ?_ ?_ ?_ ?_
  · intro _
    exact chain_append_check D T0 _ _ _ hc (List.chain'_singleton _)
  · intro h _
    rw [hs] at h
    exact chain_append_check D T0 _ _ _ hc (by simp [List.chain'_cons, CheckedDequeue, h])
  · intro i h _ _
    rw [hs] at h
    exact chain_append_check D T0 _ _ _ hc (by simp [List.chain'_cons, CheckedDequeue, h])
  · intro i h _ _ _
    rw [hs] at h
    exact chain_append_check D T0 _ _ _ hc (by simp [List.chain'_cons, CheckedDequeue, h])
  · intro i h _ _ _ _
    rw [hs] at h
    exact chain_append_check D T0 _ _ _ hc (by simp [List.chain'_cons, CheckedDequeue, h])
  · intro i h _ _ _ _
    rw [hs] at h
    exact chain_append_check D T0 _ _ _ hc (by simp [List.chain'_cons, CheckedDequeue, h])

theorem loop_chain (D : Int) (lt : Int → Tm) (T0 : Int) (cs : List CycleEnv) (s : State)
    (hs : s.start_time = T0) (hc : List.Chain' (CheckedDequeue D T0) s.log) :
    List.Chain' (CheckedDequeue D T0) (loop D lt cs s).1.log := by
  have h := loop_preserves D lt
    (fun s1 => s1.start_time = T0 ∧ List.Chain' (CheckedDequeue D T0) s1.log)
    (fun c s0 h0 =>
      ⟨(loopBody_log_kind D lt c s0).1.trans h0.1, loopBody_chain D lt c s0 T0 h0.1 h0.2⟩)
    cs s ⟨hs, hc⟩
  exact h.2

theorem cleanup_log (ok : Bool) (s : State) :
    (cleanup ok s).log
      = s.log ++ [Event.streamoff ok, Event.close Dev.i2c, Event.close Dev.video] := by
  simp [cleanup, State.emit]

theorem chain_append_cleanup (D T0 : Int) (log : List Event) (ok : Bool)
    (hc : List.Chain' (CheckedDequeue D T0) log) :
    List.Chain' (CheckedDequeue D T0)
      (log ++ [Event.streamoff ok, Event.close Dev.i2c, Event.close Dev.video]) := by
  refine List.Chain'.append hc (by simp [List.chain'_cons, CheckedDequeue]) ?_
  intro x _ y hy r hyr
  simp only [List.head?_cons, Option.mem_def, Option.some.injEq] at hy
  rw [← hy] at hyr
  cases hyr

theorem mainWith_chain (D : Int) (env : Env) :
    List.Chain' (CheckedDequeue D env.startTime) (mainWith D env).state.log ∧
    (mainWith D env).state.log.head? = some (Event.openDev Dev.video env.openVideo) := by
  have h0 : List.Chain' (CheckedDequeue D env.startTime) (streamState env).log := by
    simp [streamState, List.chain'_cons, CheckedDequeue]
  have hl := loop_chain D env.localtime env.startTime env.cycles (streamState env) rfl h0
  obtain ⟨_, evs, hlog, _⟩ := loop_log_kind D env.localtime env.cycles (streamState env)
  have hhead : (loop D env.localtime env.cycles (streamState env)).1.log.head?
      = some (Event.openDev Dev.video true) := by
    rw [hlog]; simp [streamState]
  refine mainWith_elim D env
    (fun r => List.Chain' (CheckedDequeue D env.startTime) r.state.log ∧
      r.state.log.head? = some (Event.openDev Dev.video env.openVideo))
    ?_ ?_ ?_ ?_ ?_ ?_ ?_
  · intro h1; simp [List.chain'_cons, CheckedDequeue, h1]
  · intro h1 _; simp [List.chain'_cons, CheckedDequeue, h1]
  · intro h1 _ _; simp [List.chain'_cons, CheckedDequeue, h1]
  · intro h1 _ _ _; simp [List.chain'_cons, CheckedDequeue, h1]
  · intro h1 _ _ _ _
    exact ⟨hl, by rw [hhead, h1]⟩
  · intro h1 _ _ _ _
    simp only [cleanup_log]
    refine ⟨chain_append_cleanup D _ _ _ hl, ?_⟩
    rw [hlog]
    simp [streamState, h1]
  · intro h1 _ _ _ _
    simp only [cleanup_log]
    refine ⟨chain_append_cleanup D _ _ _ hl, ?_⟩
    rw [hlog]
    simp [streamState, h1]

theorem mainWith_checks (D : Int) (env : Env) :
    ((mainWith D env).result = some (0, ExitPath.durationReached) ∧
      ∃ L t, (mainWith D env).state.log
          = L ++ Event.checkTime t
              :: [Event.streamoff env.streamOff, Event.close Dev.i2c, Event.close Dev.video] ∧
        NoCheckSatisfied D env.startTime L ∧ D ≤ difftime t env.startTime) ∨
    ((mainWith D env).result ≠ some (0, ExitPath.durationReached) ∧
      NoCheckSatisfied D env.startTime (mainWith D env).state.log) := by
  have h0 : NoCheckSatisfied D env.startTime (streamState env).log := by
    intro t ht
    simp [streamState] at ht
  have hl := loop_checks D env.localtime env.startTime env.cycles (streamState env) rfl h0
  refine mainWith_elim D env
    (fun r => (r.result = some (0, ExitPath.durationReached) ∧
      ∃ L t, r.state.log
          = L ++ Event.checkTime t
              :: [Event.streamoff env.streamOff, Event.close Dev.i2c, Event.close Dev.video] ∧
        NoCheckSatisfied D env.startTime L ∧ D ≤ difftime t env.startTime) ∨
      (r.result ≠ some (0, ExitPath.durationReached) ∧
        NoCheckSatisfied D env.startTime r.state.log))
    ?_ ?_ ?_ ?_ ?_ ?_ ?_
  · intro _
    exact Or.inr ⟨by simp, fun t ht => by simp at ht⟩
  · intro _ _
    exact Or.inr ⟨by simp, fun t ht => by simp at ht⟩
  · intro _ _ _
    exact Or.inr ⟨by simp, fun t ht => by simp at ht⟩
  · intro _ _ _ _
    exact Or.inr ⟨by simp, fun t ht => by simp at ht⟩
  · intro _ _ _ _ hfl
    exact Or.inr ⟨by simp, hl.2 (by rw [hfl]; simp)⟩
  · intro _ _ _ _ hfl
    refine Or.inr ⟨by simp, ?_⟩
    have := hl.2 (by rw [hfl]; simp)
    simp only [cleanup_log]
    exact noCheck_append_none D _ _ _ this (by simp)
  · intro _ _ _ _ hfl
    obtain ⟨L, t, hlog, hL, ht⟩ := hl.1 hfl
    refine Or.inl ⟨rfl, L, t, ?_, hL, ht⟩
    simp [cleanup_log, hlog]

theorem loopBody_head (D : Int) (lt : Int → Tm) (c : CycleEnv) (s : State) :
    ∃ rest, (loopBody D lt c s).1.log = s.log ++ Event.checkTime c.now :: rest := by
  refine loopBody_elim D lt c s
    (fun r => ∃ rest, r.1.log = s.log ++ Event.checkTime c.now :: rest) ?_ ?_ ?_ ?_ ?_ ?_
  · intro _; exact ⟨_, rfl⟩
  · intro _ _; exact ⟨_, rfl⟩
  · intro i _ _ _; exact ⟨_, rfl⟩
  · intro i _ _ _ _; exact ⟨_, rfl⟩
  · intro i _ _ _ _ _; exact ⟨_, rfl⟩
  · intro i _ _ _ _ _; exact ⟨_, rfl⟩

theorem loop_head (D : Int) (lt : Int → Tm) (c : CycleEnv) (cs : List CycleEnv) (s : State) :
    ∃ rest, (loop D lt (c :: cs) s).1.log = s.log ++ Event.checkTime c.now :: rest := by
  obtain ⟨rest, hrest⟩ := loopBody_head D lt c s
  by_cases h : (loopBody D lt c s).2 = Flow.next
  · rw [loop_cons_next D lt c cs s h]
    obtain ⟨_, evs, hlog, _⟩ := loop_log_kind D lt cs (loopBody D lt c s).1
    exact ⟨rest ++ evs, by rw [hlog, hrest]; simp⟩
  · rw [loop_cons_stop D lt c cs s h]
    exact ⟨rest, hrest⟩

/-! ## Content and naming of the output files -/

theorem FilesLatest_same_files (s s1 : State) (evs : List Event) (h : FilesLatest s)
    (hf : s1.files = s.files) (hl : s1.log = s.log ++ evs) (hn : savedNames evs = []) :
    FilesLatest s1 := by
  intro f hmem
  rw [hf] at hmem
  obtain ⟨a, b, hlog, hnot⟩ := h f hmem
  refine ⟨a, b ++ evs, ?_, ?_⟩
  · rw [hl, hlog]; simp
  · have hn2 : List.filterMap Event.savedName evs = [] := hn
    rw [savedNames, List.filterMap_append, hn2, List.append_nil]
    exact hnot

theorem FilesLatest_saved (s s1 : State) (pre post : List Event) (name : String)
    (bytes : List Nat) (h : FilesLatest s) (hf : s1.files = fsWrite s.files name bytes)
    (hl : s1.log = s.log ++ (pre ++ Event.fopen name true :: Event.fwrite bytes :: post))
    (hpre : savedNames pre = []) (hpost : savedNames post = []) :
    FilesLatest s1 := by
  have hpre2 : List.filterMap Event.savedName pre = [] := hpre
  have hpost2 : List.filterMap Event.savedName post = [] := hpost
  intro f hmem
  rw [hf, fsWrite] at hmem
  rcases List.mem_cons.mp hmem with hnew | hold
  · subst hnew
    refine ⟨s.log ++ pre, post, ?_, ?_⟩
    · rw [hl]; simp
    · rw [hpost]; simp
  · obtain ⟨hm, hne⟩ := List.mem_filter.mp hold
    have hne2 : f.1 ≠ name := by simpa using hne
    obtain ⟨a, b, hlog, hnot⟩ := h f hm
    refine ⟨a, b ++ (pre ++ Event.fopen name true :: Event.fwrite bytes :: post), ?_, ?_⟩
    · rw [hl, hlog]; simp
    · rw [savedNames] at hnot ⊢
      simp only [List.filterMap_append, List.filterMap_cons, Event.savedName, hpre2, hpost2,
        List.append_nil, List.nil_append, List.mem_append, List.mem_singleton, not_or]
      exact ⟨hnot, hne2⟩

theorem loopBody_FilesLatest (D : Int) (lt : Int → Tm) (c : CycleEnv) (s : State)
    (h : FilesLatest s) : FilesLatest (loopBody D lt c s).1 := by
  refine loopBody_elim D lt c s (fun r => FilesLatest r.1) ?_ ?_ ?_ ?_ ?_ ?_
  · intro _
    exact FilesLatest_same_files s _ _ h rfl rfl (by simp [savedNames, Event.savedName])
  · intro _ _
    exact FilesLatest_same_files s _ _ h rfl rfl (by simp [savedNames, Event.savedName])
  · intro i _ _ _
    exact FilesLatest_same_files s _ _ h rfl rfl (by simp [savedNames, Event.savedName])
  · intro i _ _ _ _
    exact FilesLatest_same_files s _ _ h rfl rfl (by simp [savedNames, Event.savedName])
  · intro i _ _ _ _ _
    exact FilesLatest_saved s _
      [Event.checkTime c.now, Event.dqbuf (some i), Event.read FRAME_SIZE FRAME_SIZE c.readDone]
      [Event.fclose, Event.qbuf i true, Event.usleep 111111] _ _ h rfl rfl
      (by simp [savedNames, Event.savedName]) (by simp [savedNames, Event.savedName])
  · intro i _ _ _ _ _
    exact FilesLatest_saved s _
      [Event.checkTime c.now, Event.dqbuf (some i), Event.read FRAME_SIZE FRAME_SIZE c.readDone]
      [Event.fclose, Event.qbuf i false] _ _ h rfl rfl
      (by simp [savedNames, Event.savedName]) (by simp [savedNames, Event.savedName])

theorem mainWith_FilesLatest (D : Int) (env : Env) : FilesLatest (mainWith D env).state := by
  have h0 : FilesLatest (streamState env) := by
    intro f hf
    simp [streamState] at hf
  have hl := loop_preserves D env.localtime FilesLatest
    (fun c s hs => loopBody_FilesLatest D env.localtime c s hs) env.cycles (streamState env) h0
  have hc : ∀ s, FilesLatest s → FilesLatest (cleanup env.streamOff s) := by
    intro s hs
    exact FilesLatest_same_files s _
      [Event.streamoff env.streamOff, Event.close Dev.i2c, Event.close Dev.video] hs rfl
      (cleanup_log _ _) (by simp [savedNames, Event.savedName])
  refine mainWith_elim D env (fun r => FilesLatest r.state) ?_ ?_ ?_ ?_ ?_ ?_ ?_
  · intro _ f hf; simp [State.init] at hf
  · intro _ _ f hf; simp [State.init] at hf
  · intro _ _ _ f hf; simp [State.init] at hf
  · intro _ _ _ _ f hf; simp [State.init] at hf
  · intro _ _ _ _ _; exact hl
  · intro _ _ _ _ _; exact hc _ hl
  · intro _ _ _ _ _; exact hc _ hl

theorem OpensNamed_append_none (lt : Int → Tm) (log evs : List Event)
    (h : OpensNamed lt log) (hevs : ∀ name ok, Event.fopen name ok ∉ evs) :
    OpensNamed lt (log ++ evs) := by
  intro a name ok b heq
  rcases List.append_eq_append_iff.mp heq with ⟨a2, _, he⟩ | ⟨c2, hlog, he⟩
  · exact absurd (by rw [he]; simp) (hevs name ok)
  · cases c2 with
    | nil =>
      simp only [List.nil_append] at he
      exact absurd (by rw [← he]; simp) (hevs name ok)
    | cons x c3 =>
      simp only [List.cons_append, List.cons.injEq] at he
      rw [← he.1] at hlog
      exact h a name ok c3 hlog

theorem OpensNamed_append_cycle (lt : Int → Tm) (log post : List Event) (t : Int) (i : Nat)
    (w : Int) (ok0 : Bool) (h : OpensNamed lt log)
    (hpost : ∀ name ok, Event.fopen name ok ∉ post) :
    OpensNamed lt
      (log ++ ([Event.checkTime t, Event.dqbuf (some i), Event.read FRAME_SIZE FRAME_SIZE w]
        ++ Event.fopen (strftime (lt t)) ok0 :: post)) := by
  intro a name ok b heq
  rcases List.append_eq_append_iff.mp heq with ⟨a2, ha, he⟩ | ⟨c2, hlog, he⟩
  · have hu := append_cons_unique (fun e => ∃ n o, e = Event.fopen n o)
      [Event.checkTime t, Event.dqbuf (some i), Event.read FRAME_SIZE FRAME_SIZE w] post a2 b
      (Event.fopen (strftime (lt t)) ok0) (Event.fopen name ok)
      (by
        intro e he2
        simp only [List.mem_cons, List.mem_singleton, List.not_mem_nil, or_false] at he2
        rcases he2 with h1 | h1 | h1 <;> subst h1 <;> simp)
      (by
        rintro e he2 ⟨n, o, hno⟩
        subst hno
        exact hpost n o he2)
      ⟨name, ok, rfl⟩ he
    refine ⟨log, t, i, w, ?_, ?_⟩
    · rw [ha, hu.1]
    · have := hu.2.1
      simp only [Event.fopen.injEq] at this
      exact this.1
  · cases c2 with
    | nil =>
      simp only [List.nil_append] at he
      have : Event.fopen name ok = Event.checkTime t := by
        have h2 := congrArg List.head? he
        simp at h2
      cases this
    | cons x c3 =>
      simp only [List.cons_append, List.cons.injEq] at he
      rw [← he.1] at hlog
      exact h a name ok c3 hlog

theorem loopBody_OpensNamed (D : Int) (lt : Int → Tm) (c : CycleEnv) (s : State)
    (h : OpensNamed lt s.log) : OpensNamed lt (loopBody D lt c s).1.log := by
  refine loopBody_elim D lt c s (fun r => OpensNamed lt r.1.log) ?_ ?_ ?_ ?_ ?_ ?_
  · intro _
    exact OpensNamed_append_none lt _ _ h (by simp)
  · intro _ _
    exact OpensNamed_append_none lt _ _ h (by simp)
  · intro i _ _ _
    exact OpensNamed_append_none lt _ _ h (by simp)
  · intro i _ _ _ _
    exact OpensNamed_append_cycle lt s.log [Event.qbuf i c.qbufOk] c.now i c.readDone false h
      (by simp)
  · intro i _ _ _ _ _
    exact OpensNamed_append_cycle lt s.log
      [Event.fwrite ((readInto s.frame FRAME_SIZE c.readData).1.take FRAME_SIZE),
       Event.fclose, Event.qbuf i true, Event.usleep 111111] c.now i c.readDone true h (by simp)
  · intro i _ _ _ _ _
    exact OpensNamed_append_cycle lt s.log
      [Event.fwrite ((readInto s.frame FRAME_SIZE c.readData).1.take FRAME_SIZE),
       Event.fclose, Event.qbuf i false] c.now i c.readDone true h (by simp)

theorem mainWith_OpensNamed (D : Int) (env : Env) :
    OpensNamed env.localtime (mainWith D env).state.log := by
  have hnil : ∀ evs : List Event, (∀ name ok, Event.fopen name ok ∉ evs) →
      OpensNamed env.localtime evs := by
    intro evs hevs a name ok b heq
    exact absurd (by rw [heq]; simp) (hevs name ok)
  have h0 : OpensNamed env.localtime (streamState env).log :=
    hnil _ (by simp [streamState])
  have hl := loop_preserves D env.localtime (fun s => OpensNamed env.localtime s.log)
    (fun c s hs => loopBody_OpensNamed D env.localtime c s hs) env.cycles (streamState env) h0
  refine mainWith_elim D env (fun r => OpensNamed env.localtime r.state.log)
    ?_ ?_ ?_ ?_ ?_ ?_ ?_
  · intro _; exact hnil _ (by simp)
  · intro _ _; exact hnil _ (by simp)
  · intro _ _ _; exact hnil _ (by simp)
  · intro _ _ _ _; exact hnil _ (by simp)
  · intro _ _ _ _ _; exact hl
  · intro _ _ _ _ _
    simp only [cleanup_log]
    exact OpensNamed_append_none _ _ _ hl (by simp)
  · intro _ _ _ _ _
    simp only [cleanup_log]
    exact OpensNamed_append_none _ _ _ hl (by simp)

theorem filter_name_singleton (files : List (String × List Nat)) (name : String)
    (hnd : (files.map Prod.fst).Nodup) (hmem : name ∈ files.map Prod.fst) :
    ∃ bytes, files.filter (fun f => f.1 = name) = [(name, bytes)] := by
  induction files with
  | nil => simp at hmem
  | cons f fs ih =>
    simp only [List.map_cons, List.nodup_cons] at hnd
    by_cases hf : f.1 = name
    · refine ⟨f.2, ?_⟩
      have hnone : fs.filter (fun g => g.1 = name) = [] := by
        apply List.filter_eq_nil_iff.mpr
        intro g hg hgn
        have hgn2 : g.1 = name := by simpa using hgn
        exact hnd.1 (by rw [hf, ← hgn2]; exact List.mem_map_of_mem Prod.fst hg)
      rw [List.filter_cons_of_pos (by simpa using hf), hnone, ← hf]
    · have hmem2 : name ∈ fs.map Prod.fst := by
        simp only [List.map_cons, List.mem_cons] at hmem
        rcases hmem with h | h
        · exact absurd h.symm hf
        · exact h
      obtain ⟨bytes, hb⟩ := ih hnd.2 hmem2
      exact ⟨bytes, by rw [List.filter_cons_of_neg (by simpa using hf), hb]⟩

/-! ## Claim C1: encoding of a control command -/

/-- C1: for 16-bit `command_id` and `value`, `lepton_cci_write` makes exactly one
bus transaction, carrying one message (`nmsgs = 1`) of length 4 to address 0x2A
whose payload is `[id / 256, id % 256, value / 256, value % 256]`. -/
theorem C1_cci_write_payload (s : State) (ioctlOk : Bool) (command_id value : Nat)
    (hid : command_id < 65536) (hval : value < 65536) :
    (lepton_cci_write s ioctlOk command_id value).1.log
      = s.log ++ [Event.i2c_rdwr
          { msgs := [{ addr := 0x2A, flags := 0, len := 4,
                       buf := [command_id / 256, command_id % 256,
                               value / 256, value % 256] }],
            nmsgs := 1 } ioctlOk]
    ∧ [command_id / 256, command_id % 256, value / 256, value % 256].length = 4
    ∧ (lepton_cci_write s ioctlOk command_id value).1.files = s.files
    ∧ (lepton_cci_write s ioctlOk command_id value).2 = (if ioctlOk then 0 else -1) := by
  have e1 := hi_byte command_id hid
  have e2 := hi_byte value hval
  have e3 := lo_byte command_id
  have e4 := lo_byte value
  cases ioctlOk <;>
    simp [lepton_cci_write, State.emit, LEPTON_I2C_ADDR, e1, e2, e3, e4]

/-- C1, at the AGC-disable command (0x0104, 0) on the initial state. -/
theorem C1_cci_write_payload_witness :
    (0x0104 < 65536 ∧ 0 < 65536) ∧
    ((lepton_cci_write State.init true 0x0104 0).1.log
      = State.init.log ++ [Event.i2c_rdwr
          { msgs := [{ addr := 0x2A, flags := 0, len := 4,
                       buf := [0x0104 / 256, 0x0104 % 256, 0 / 256, 0 % 256] }],
            nmsgs := 1 } true]
    ∧ [0x0104 / 256, 0x0104 % 256, 0 / 256, 0 % 256].length = 4
    ∧ (lepton_cci_write State.init true 0x0104 0).1.files = State.init.files
    ∧ (lepton_cci_write State.init true 0x0104 0).2 = (if true then 0 else -1)) :=
  ⟨⟨by decide, by decide⟩,
   C1_cci_write_payload State.init true 0x0104 0 (by decide) (by decide)⟩

/-! ## Claim C2: when a frame is persisted -/

/-- C2: in a frame cycle (an iteration that passes the duration check) a file is
written exactly when the dequeue succeeds, `read` returns `FRAME_SIZE = 38400` and
`fopen` succeeds; the bytes written are then the 38400 bytes just read into the
frame buffer and they are the whole content of the file; otherwise, in particular
after a short read, no file is opened for writing and the directory is unchanged. -/
theorem C2_file_written_iff (D : Int) (lt : Int → Tm) (c : CycleEnv) (s : State)
    (h : difftime c.now s.start_time < D) :
    FRAME_SIZE = 160 * 120 * 2 ∧ FRAME_SIZE = 38400 ∧
    ∃ evs, (loopBody D lt c s).1.log = s.log ++ evs ∧
      ((∃ bytes, Event.fwrite bytes ∈ evs) ↔
        (c.dqbuf.isSome = true ∧ (readInto s.frame FRAME_SIZE c.readData).2 = 38400
          ∧ c.fopenOk = true)) ∧
      ((c.dqbuf.isSome = true ∧ (readInto s.frame FRAME_SIZE c.readData).2 = 38400
          ∧ c.fopenOk = true) →
        ∃ d, c.readData = some d ∧ (d.take 38400).length = 38400 ∧
          (loopBody D lt c s).1.frame.take 38400 = d.take 38400 ∧
          (∀ bytes, Event.fwrite bytes ∈ evs ↔ bytes = d.take 38400) ∧
          Event.fopen (strftime (lt c.now)) true ∈ evs ∧
          (loopBody D lt c s).1.files
            = (strftime (lt c.now), d.take 38400)
                :: s.files.filter (fun f => f.1 ≠ strftime (lt c.now))) ∧
      (¬ (c.dqbuf.isSome = true ∧ (readInto s.frame FRAME_SIZE c.readData).2 = 38400
          ∧ c.fopenOk = true) →
        (loopBody D lt c s).1.files = s.files ∧ ∀ name, Event.fopen name true ∉ evs) := by
  refine ⟨by decide, frame_size_eq, ?_⟩
  have hF : ((FRAME_SIZE : Nat) : Int) = 38400 := by rw [frame_size_eq]; rfl
  cases hd : c.dqbuf with
  | none =>
    rw [loopBody_dqfail D lt c s h hd]
    exact ⟨_, rfl, by simp, by simp, by simp⟩
  | some i =>
    by_cases hr : (readInto s.frame FRAME_SIZE c.readData).2 = (FRAME_SIZE : Int)
    · have hr38 : (readInto s.frame FRAME_SIZE c.readData).2 = 38400 := by rw [hr, hF]
      obtain ⟨d, hdata, hlen, htake⟩ := readInto_full _ _ _ hr
      cases hf : c.fopenOk with
      | false =>
        rw [loopBody_nofile D lt c s i h hd hr hf]
        exact ⟨_, rfl, by simp, by simp, by simp⟩
      | true =>
        rw [loopBody_saved D lt c s i h hd hr hf]
        refine ⟨_, rfl, ?_, ?_, ?_⟩
        · simp [hr38]
        · intro _
          refine ⟨d, hdata, ?_, ?_, ?_, ?_, ?_⟩
          · rw [← frame_size_eq]; exact hlen
          · rw [← frame_size_eq]; exact htake
          · intro bytes
            rw [← frame_size_eq, ← htake]
            cases c.qbufOk <;> simp
          · simp
          · simp only [fsWrite]
            rw [← frame_size_eq, ← htake]
        · intro hn
          exact absurd ⟨rfl, hr38, rfl⟩ hn
    · have hr38 : (readInto s.frame FRAME_SIZE c.readData).2 ≠ 38400 := by
        rw [← hF]; exact hr
      rw [loopBody_short D lt c s i h hd hr]
      exact ⟨_, rfl, by simp [hr38], by simp [hr38], by simp⟩

/-- C2, at the first cycle of a run whose every call succeeds. -/
theorem C2_file_written_iff_witness :
    difftime (cycleOk 0 7).now (streamState envOneFrame).start_time < 3600 ∧
    (FRAME_SIZE = 160 * 120 * 2 ∧ FRAME_SIZE = 38400 ∧
      ∃ evs, (loopBody 3600 gmtime (cycleOk 0 7) (streamState envOneFrame)).1.log
          = (streamState envOneFrame).log ++ evs ∧
        ((∃ bytes, Event.fwrite bytes ∈ evs) ↔
          ((cycleOk 0 7).dqbuf.isSome = true ∧
            (readInto (streamState envOneFrame).frame FRAME_SIZE (cycleOk 0 7).readData).2
              = 38400 ∧
            (cycleOk 0 7).fopenOk = true)) ∧
        (((cycleOk 0 7).dqbuf.isSome = true ∧
            (readInto (streamState envOneFrame).frame FRAME_SIZE (cycleOk 0 7).readData).2
              = 38400 ∧
            (cycleOk 0 7).fopenOk = true) →
          ∃ d, (cycleOk 0 7).readData = some d ∧ (d.take 38400).length = 38400 ∧
            (loopBody 3600 gmtime (cycleOk 0 7) (streamState envOneFrame)).1.frame.take 38400
              = d.take 38400 ∧
            (∀ bytes, Event.fwrite bytes ∈ evs ↔ bytes = d.take 38400) ∧
            Event.fopen (strftime (gmtime (cycleOk 0 7).now)) true ∈ evs ∧
            (loopBody 3600 gmtime (cycleOk 0 7) (streamState envOneFrame)).1.files
              = (strftime (gmtime (cycleOk 0 7).now), d.take 38400)
                  :: (streamState envOneFrame).files.filter
                      (fun f => f.1 ≠ strftime (gmtime (cycleOk 0 7).now))) ∧
        (¬ ((cycleOk 0 7).dqbuf.isSome = true ∧
            (readInto (streamState envOneFrame).frame FRAME_SIZE (cycleOk 0 7).readData).2
              = 38400 ∧
            (cycleOk 0 7).fopenOk = true) →
          (loopBody 3600 gmtime (cycleOk 0 7) (streamState envOneFrame)).1.files
            = (streamState envOneFrame).files ∧
          ∀ name, Event.fopen name true ∉ evs)) :=
  ⟨by decide,
   C2_file_written_iff 3600 gmtime (cycleOk 0 7) (streamState envOneFrame) (by decide)⟩

/-! ## Claim C3: number of output files -/

/-- C3 (as stated, refuted): two consecutive cycles in the same wall-clock second
both persist a frame, yet the run ends with one output file; the second frame
has replaced the first. -/
theorem C3_two_frames_one_file :
    (main envSameSecond).result = some (0, ExitPath.durationReached) ∧
    savedNames (main envSameSecond).state.log
      = ["lepton_19700101_000000.grey", "lepton_19700101_000000.grey"] ∧
    (main envSameSecond).state.files = [("lepton_19700101_000000.grey", fullFrame 8)] ∧
    (main envSameSecond).state.files.length
      ≠ (savedNames (main envSameSecond).state.log).length := by
  have e0 : strftime (gmtime 0) = "lepton_19700101_000000.grey" := by decide
  have hl :=
    (loop_step_next 3600 gmtime (cycleOk 0 7) [cycleOk 0 8, cycleOk 3600 9]
      (streamState envSameSecond) _
      (loopBody_fullFrame 3600 gmtime (cycleOk 0 7) (streamState envSameSecond) 0 7
        (by decide) rfl rfl rfl)).trans
    ((loop_step_next 3600 gmtime (cycleOk 0 8) [cycleOk 3600 9] _ _
      (loopBody_fullFrame 3600 gmtime (cycleOk 0 8) _ 0 8 (by decide) rfl rfl rfl)).trans
     (loop_step_stop 3600 gmtime (cycleOk 3600 9) [] _ _ _
      (loopBody_duration 3600 gmtime (cycleOk 3600 9) _ (by decide)) (by decide)))
  have hm : main envSameSecond = _ :=
    mainWith_of_loop_break 3600 envSameSecond _ rfl rfl rfl rfl hl
  rw [hm]
  refine ⟨rfl, ?_, ?_, ?_⟩
  · simp [cleanup, State.emit, savedNames, Event.savedName, cycleOk, streamState, e0]
  · simp [cleanup, State.emit, fsWrite, cycleOk, streamState, e0]
  · simp [cleanup, State.emit, savedNames, Event.savedName, fsWrite, cycleOk, streamState, e0]

/-- C3 (amended): at any point of any run the directory holds exactly one file
per distinct name among the files opened for writing, so the number of files is
the number of distinct names of persisted frames, at most the number of
persisted frames, and equal to it when their names are pairwise distinct; every
file holds a whole 38400-byte frame that was written.  A persisted frame whose
name equals that of an earlier one replaces it: each file holds the bytes
written at the last successful open of its name.  Every file name opened is the
text for the local time of the duration-check reading of its iteration, so all
persisted frames whose duration checks read the same second share exactly one
file. -/
theorem C3_one_file_per_distinct_name (D : Int) (env : Env) :
    ((mainWith D env).state.files.map Prod.fst).Nodup ∧
    (∀ name, name ∈ (mainWith D env).state.files.map Prod.fst
      ↔ name ∈ savedNames (mainWith D env).state.log) ∧
    (mainWith D env).state.files.length
      = (savedNames (mainWith D env).state.log).dedup.length ∧
    (mainWith D env).state.files.length ≤ (savedNames (mainWith D env).state.log).length ∧
    ((savedNames (mainWith D env).state.log).Nodup →
      (mainWith D env).state.files.length = (savedNames (mainWith D env).state.log).length) ∧
    (∀ f ∈ (mainWith D env).state.files,
      f.2.length = 38400 ∧ Event.fwrite f.2 ∈ (mainWith D env).state.log) ∧
    (∀ f ∈ (mainWith D env).state.files, ∃ a b,
      (mainWith D env).state.log = a ++ Event.fopen f.1 true :: Event.fwrite f.2 :: b ∧
      f.1 ∉ savedNames b) ∧
    (∀ a name ok b, (mainWith D env).state.log = a ++ Event.fopen name ok :: b →
      ∃ a1 t i w,
        a = a1 ++ [Event.checkTime t, Event.dqbuf (some i),
                   Event.read FRAME_SIZE FRAME_SIZE w] ∧
        name = strftime (env.localtime t)) ∧
    (∀ a t i w name b,
      (mainWith D env).state.log
        = a ++ Event.checkTime t :: Event.dqbuf (some i)
            :: Event.read FRAME_SIZE FRAME_SIZE w :: Event.fopen name true :: b →
      name = strftime (env.localtime t) ∧
      ∃ bytes, (mainWith D env).state.files.filter (fun f => f.1 = strftime (env.localtime t))
        = [(strftime (env.localtime t), bytes)]) := by
  obtain ⟨h1, h2, h3⟩ := mainWith_FilesInv D env
  have hlatest := mainWith_FilesLatest D env
  have hnamed := mainWith_OpensNamed D env
  have hperm : ((mainWith D env).state.files.map Prod.fst).Perm
      (savedNames (mainWith D env).state.log).dedup :=
    (List.perm_ext_iff_of_nodup h1 (List.nodup_dedup _)).mpr
      (fun a => by rw [List.mem_dedup]; exact h2 a)
  have hlen : (mainWith D env).state.files.length
      = (savedNames (mainWith D env).state.log).dedup.length := by
    rw [← hperm.length_eq, List.length_map]
  refine ⟨h1, h2, hlen, ?_, ?_, ?_, hlatest, hnamed, ?_⟩
  · rw [hlen]
    exact (List.dedup_sublist _).length_le
  · intro hnd
    rw [hlen, hnd.dedup]
  · intro f hf
    rw [← frame_size_eq]
    exact h3 f hf
  · intro a t i w name b hlog
    have hlog2 : (mainWith D env).state.log
        = (a ++ [Event.checkTime t, Event.dqbuf (some i), Event.read FRAME_SIZE FRAME_SIZE w])
            ++ Event.fopen name true :: b := by
      rw [hlog]; simp
    obtain ⟨a1, t1, i1, w1, ha, hname⟩ := hnamed _ name true b hlog2
    have hinj := List.append_inj' ha rfl
    have ht : t = t1 := by
      have := hinj.2
      simp only [List.cons.injEq, Event.checkTime.injEq] at this
      exact this.1
    subst ht
    refine ⟨hname, ?_⟩
    apply filter_name_singleton _ _ h1
    rw [h2, ← hname, hlog, savedNames]
    simp [Event.savedName]

/-! ## Claim C4: file names -/

/-- C4 (as stated, refuted): the duration check reads second 0, the dequeue
blocks and the frame is read at second 2; the file is named after second 0, not
after second 2. -/
theorem C4_name_is_not_read_time :
    (main envLateRead).result = some (0, ExitPath.durationReached) ∧
    Event.read FRAME_SIZE FRAME_SIZE 2 ∈ (main envLateRead).state.log ∧
    savedNames (main envLateRead).state.log = ["lepton_19700101_000000.grey"] ∧
    (main envLateRead).state.files = [("lepton_19700101_000000.grey", fullFrame 7)] ∧
    strftime (envLateRead.localtime 2) = "lepton_19700101_000002.grey" ∧
    strftime (envLateRead.localtime 2) ∉ savedNames (main envLateRead).state.log := by
  have e0 : strftime (gmtime 0) = "lepton_19700101_000000.grey" := by decide
  have e2 : strftime (gmtime 2) = "lepton_19700101_000002.grey" := by decide
  have hl :=
    (loop_step_next 3600 gmtime
      { now := 0, dqbuf := some 0, readData := some (fullFrame 7), readDone := 2,
        fopenOk := true, qbufOk := true } [cycleOk 3600 9]
      (streamState envLateRead) _
      (loopBody_fullFrame 3600 gmtime _ (streamState envLateRead) 0 7
        (by decide) rfl rfl rfl)).trans
     (loop_step_stop 3600 gmtime (cycleOk 3600 9) [] _ _ _
      (loopBody_duration 3600 gmtime (cycleOk 3600 9) _ (by decide)) (by decide))
  have hm : main envLateRead = _ :=
    mainWith_of_loop_break 3600 envLateRead _ rfl rfl rfl rfl hl
  rw [hm]
  refine ⟨rfl, ?_, ?_, ?_, ?_, ?_⟩
  · simp [cleanup, State.emit, streamState]
  · simp [cleanup, State.emit, savedNames, Event.savedName, streamState, e0]
  · simp [cleanup, State.emit, fsWrite, streamState, e0]
  · exact e2
  · rw [show envLateRead.localtime = gmtime from rfl, e2]
    simp [cleanup, State.emit, savedNames, Event.savedName, streamState, e0]

/-- C4 (amended): a pass through the loop body starts with the clock reading of
the duration check, and every output file it opens is named
"lepton_" YYYYMMDD "_" HHMMSS ".grey" after the local time of that reading (the
value of `now` for the iteration, taken before the dequeue), whatever the start
time and whenever the read completes. -/
theorem C4_name_from_duration_check (D : Int) (lt : Int → Tm) (c : CycleEnv) (s : State) :
    ∃ evs, (loopBody D lt c s).1.log = s.log ++ evs ∧
      evs.head? = some (Event.checkTime c.now) ∧
      (loopBody D lt c s).1.now = c.now ∧
      ∀ name ok, Event.fopen name ok ∈ evs →
        name = strftime (lt c.now) ∧
        name = "lepton_" ++ toString ((lt c.now).tm_year + 1900)
                ++ pad2 ((lt c.now).tm_mon + 1) ++ pad2 (lt c.now).tm_mday
                ++ "_" ++ pad2 (lt c.now).tm_hour ++ pad2 (lt c.now).tm_min
                ++ pad2 (lt c.now).tm_sec ++ ".grey" := by
  refine loopBody_elim D lt c s
    (fun r => ∃ evs, r.1.log = s.log ++ evs ∧
      evs.head? = some (Event.checkTime c.now) ∧
      r.1.now = c.now ∧
      ∀ name ok, Event.fopen name ok ∈ evs →
        name = strftime (lt c.now) ∧
        name = "lepton_" ++ toString ((lt c.now).tm_year + 1900)
                ++ pad2 ((lt c.now).tm_mon + 1) ++ pad2 (lt c.now).tm_mday
                ++ "_" ++ pad2 (lt c.now).tm_hour ++ pad2 (lt c.now).tm_min
                ++ pad2 (lt c.now).tm_sec ++ ".grey")
    ?_ ?_ ?_ ?_ ?_ ?_
  · intro _; exact ⟨_, rfl, rfl, rfl, by simp⟩
  · intro _ _; exact ⟨_, rfl, rfl, rfl, by simp⟩
  · intro i _ _ _; exact ⟨_, rfl, rfl, rfl, by simp⟩
  · intro i _ _ _ _
    refine ⟨_, rfl, rfl, rfl, ?_⟩
    intro name ok h
    have hn : name = strftime (lt c.now) := by
      simp at h
      exact h.1
    exact ⟨hn, by rw [hn]; rfl⟩
  · intro i _ _ _ _ _
    refine ⟨_, rfl, rfl, rfl, ?_⟩
    intro name ok h
    have hn : name = strftime (lt c.now) := by
      simp at h
      exact h.1
    exact ⟨hn, by rw [hn]; rfl⟩
  · intro i _ _ _ _ _
    refine ⟨_, rfl, rfl, rfl, ?_⟩
    intro name ok h
    have hn : name = strftime (lt c.now) := by
      simp at h
      exact h.1
    exact ⟨hn, by rw [hn]; rfl⟩

/-! ## Claim C5: exit status -/

/-- C5 (the code at the failing input): every set-up fault makes `main` return
-1, exit status 255; but a run whose loop is left by a failed requeue, with no
duration check ever satisfied, returns 0. -/
theorem C5_requeue_failure_returns_zero :
    (∀ (D : Int) (env : Env),
      (env.openVideo = false ∨ env.sFmt = false ∨ env.openI2c = false ∨ env.streamOn = false) →
      ∃ p, (mainWith D env).result = some (-1, p)) ∧
    exitStatus (-1) = 255 ∧
    (main envRequeueFails).result = some (0, ExitPath.requeueFailed) ∧
    exitStatus 0 = 0 ∧
    Event.qbuf 0 false ∈ (main envRequeueFails).state.log ∧
    (∀ t, Event.checkTime t ∈ (main envRequeueFails).state.log →
      difftime t envRequeueFails.startTime < CAPTURE_DURATION) := by
  have hl :=
    loop_step_stop 3600 gmtime
      { now := 0, dqbuf := some 0, readData := some (fullFrame 7), readDone := 0,
        fopenOk := true, qbufOk := false } []
      (streamState envRequeueFails) _ _
      (loopBody_fullFrame 3600 gmtime _ (streamState envRequeueFails) 0 7
        (by decide) rfl rfl rfl) (by decide)
  have hm : main envRequeueFails = _ :=
    mainWith_of_loop_requeue 3600 envRequeueFails _ rfl rfl rfl rfl hl
  refine ⟨?_, by decide, ?_, by decide, ?_, ?_⟩
  · intro D env h
    refine mainWith_elim D env (fun r => ∃ p, r.result = some (-1, p))
      (fun _ => ⟨_, rfl⟩) (fun _ _ => ⟨_, rfl⟩) (fun _ _ _ => ⟨_, rfl⟩)
      (fun _ _ _ _ => ⟨_, rfl⟩) ?_ ?_ ?_
    all_goals
      intro h1 h2 h3 h4 _
      rw [h1, h2, h3, h4] at h
      simp at h
  · rw [hm]
  · rw [hm]
    simp [cleanup, State.emit, streamState]
  · rw [hm]
    intro t ht
    have : t = 0 := by
      simpa [cleanup, State.emit, streamState] using ht
    subst this
    decide

/-! ## Claim C6: failed requeue -/

/-- C6 (the code at the failing input): a requeue that fails after a short read,
and another that fails after a file-open failure, do not end the loop: each is
followed by a further duration check, dequeue and read, and a later cycle
writes a file. -/
theorem C6_loop_continues_after_failed_requeue :
    (main envRequeueFailsAfterSkip).result = some (0, ExitPath.durationReached) ∧
    (main envRequeueFailsAfterSkip).state.log
      = [Event.openDev Dev.video true,
         Event.s_fmt 160 120 true,
         Event.openDev Dev.i2c true,
         Event.i2c_rdwr { msgs := [{ addr := 0x2A, flags := 0, len := 4,
                                     buf := [1, 4, 0, 0] }], nmsgs := 1 } true,
         Event.i2c_rdwr { msgs := [{ addr := 0x2A, flags := 0, len := 4,
                                     buf := [2, 4, 0, 1] }], nmsgs := 1 } true,
         Event.streamon true,
         Event.startTime 0,
         Event.checkTime 0,
         Event.dqbuf (some 0),
         Event.read FRAME_SIZE 3 0,
         Event.qbuf 0 false,
         Event.checkTime 1,
         Event.dqbuf (some 1),
         Event.read FRAME_SIZE FRAME_SIZE 1,
         Event.fopen "lepton_19700101_000001.grey" false,
         Event.qbuf 1 false,
         Event.checkTime 2,
         Event.dqbuf (some 0),
         Event.read FRAME_SIZE FRAME_SIZE 2,
         Event.fopen "lepton_19700101_000002.grey" true,
         Event.fwrite (fullFrame 8),
         Event.fclose,
         Event.qbuf 0 true,
         Event.usleep 111111,
         Event.checkTime 3600,
         Event.streamoff true,
         Event.close Dev.i2c,
         Event.close Dev.video] := by
  have e1 : strftime (gmtime 1) = "lepton_19700101_000001.grey" := by decide
  have e2 : strftime (gmtime 2) = "lepton_19700101_000002.grey" := by decide
  have hF : ((FRAME_SIZE : Nat) : Int) = 38400 := by rw [frame_size_eq]; rfl
  have hl :=
    (loop_step_next 3600 gmtime
      { now := 0, dqbuf := some 0, readData := some [1, 2, 3], readDone := 0,
        fopenOk := true, qbufOk := false } _
      (streamState envRequeueFailsAfterSkip) _
      (loopBody_short 3600 gmtime _ (streamState envRequeueFailsAfterSkip) 0
        (by decide) rfl (by rw [readInto_three, hF]; decide))).trans
    ((loop_step_next 3600 gmtime
      { now := 1, dqbuf := some 1, readData := some (fullFrame 7), readDone := 1,
        fopenOk := false, qbufOk := false } _ _ _
      (loopBody_nofile 3600 gmtime _ _ 1 (by decide) rfl
        (by rw [readInto_fullFrame]) rfl)).trans
    ((loop_step_next 3600 gmtime (cycleOk 2 8) [cycleOk 3600 9] _ _
      (loopBody_fullFrame 3600 gmtime (cycleOk 2 8) _ 0 8 (by decide) rfl rfl rfl)).trans
     (loop_step_stop 3600 gmtime (cycleOk 3600 9) [] _ _ _
      (loopBody_duration 3600 gmtime (cycleOk 3600 9) _ (by decide)) (by decide))))
  have hm : main envRequeueFailsAfterSkip = _ :=
    mainWith_of_loop_break 3600 envRequeueFailsAfterSkip _ rfl rfl rfl rfl hl
  rw [hm]
  refine ⟨rfl, ?_⟩
  simp [cleanup, State.emit, streamState, cycleOk, e1, e2, readInto_three,
    FRAME_WIDTH, FRAME_HEIGHT, envRequeueFailsAfterSkip, envOk]

/-! ## Claim C7: requeue accounting -/

/-- C7: a pass through the loop body issues as many requeue requests as it has
successful dequeues: none when no dequeue succeeded, and exactly one, for the
dequeued descriptor, when one did (frame persisted, short read, or file-open
failure alike).  Over a whole run the number of requeue requests equals the
number of successful dequeues. -/
theorem C7_requeue_once_per_dequeue (D : Int) (env : Env) :
    (∀ (lt : Int → Tm) (c : CycleEnv) (s : State),
      ∃ evs, (loopBody D lt c s).1.log = s.log ++ evs ∧
        evs.countP Event.isQbuf = evs.countP Event.isDqbufOk ∧
        ((∀ i, Event.dqbuf (some i) ∉ evs) → evs.filter Event.isQbuf = []) ∧
        (∀ i, Event.dqbuf (some i) ∈ evs →
          evs.filter Event.isQbuf = [Event.qbuf i c.qbufOk])) ∧
    (mainWith D env).state.log.countP Event.isQbuf
      = (mainWith D env).state.log.countP Event.isDqbufOk := by
  refine ⟨fun lt c s => loopBody_requeue_balance D lt c s, ?_⟩
  have hl := loop_requeue_balance D env.localtime env.cycles (streamState env)
    (by simp [streamState, Event.isQbuf, Event.isDqbufOk])
  refine mainWith_elim D env
    (fun r => r.state.log.countP Event.isQbuf = r.state.log.countP Event.isDqbufOk)
    ?_ ?_ ?_ ?_ ?_ ?_ ?_
  · intro _; simp [Event.isQbuf, Event.isDqbufOk]
  · intro _ _; simp [Event.isQbuf, Event.isDqbufOk]
  · intro _ _ _; simp [Event.isQbuf, Event.isDqbufOk]
  · intro _ _ _ _; simp [Event.isQbuf, Event.isDqbufOk]
  · intro _ _ _ _ _; exact hl
  · intro _ _ _ _ _
    simp [cleanup, State.emit, List.countP_append, Event.isQbuf, Event.isDqbufOk, hl]
  · intro _ _ _ _ _
    simp [cleanup, State.emit, List.countP_append, Event.isQbuf, Event.isDqbufOk, hl]

/-! ## Claim C8: duration check -/

/-- C8: (1) every dequeue in the log of a run is immediately preceded by a
duration check whose reading gave an elapsed time below `D`; (2) a duration
check whose reading gives an elapsed time of `D` or more is followed by nothing
but stream-off and the two closes, and `main` returns by that path; (3) once
streaming has started the first call after recording the start time is a
duration check, and with `D = 0` and a first reading not earlier than the start
time that check ends the loop: no cycle runs and no file is written. -/
theorem C8_duration_check (D : Int) (env : Env) :
    (∀ a r b, (mainWith D env).state.log = a ++ Event.dqbuf r :: b →
      ∃ a1 t, a = a1 ++ [Event.checkTime t] ∧ difftime t env.startTime < D) ∧
    (∀ a t b, (mainWith D env).state.log = a ++ Event.checkTime t :: b →
      D ≤ difftime t env.startTime →
      b = [Event.streamoff env.streamOff, Event.close Dev.i2c, Event.close Dev.video] ∧
      (mainWith D env).result = some (0, ExitPath.durationReached)) ∧
    (env.openVideo = true → env.sFmt = true → env.openI2c = true → env.streamOn = true →
      ∀ c cs, env.cycles = c :: cs →
        (∃ pre rest, (mainWith D env).state.log
          = pre ++ Event.startTime env.startTime :: Event.checkTime c.now :: rest) ∧
        (env.startTime ≤ c.now →
          (mainWith 0 env).result = some (0, ExitPath.durationReached) ∧
          (mainWith 0 env).state.log
            = (streamState env).log ++
                [Event.checkTime c.now, Event.streamoff env.streamOff,
                 Event.close Dev.i2c, Event.close Dev.video] ∧
          (mainWith 0 env).state.files = [])) := by
  refine ⟨?_, ?_, ?_⟩
  · intro a r b hlog
    obtain ⟨hc, hhead⟩ := mainWith_chain D env
    rw [hlog] at hc hhead
    rcases List.eq_nil_or_concat a with ha | ⟨a1, x, ha⟩
    · subst ha
      simp at hhead
    · rw [List.concat_eq_append] at ha
      subst ha
      rw [List.append_assoc, List.singleton_append] at hc
      obtain ⟨t, hx, ht⟩ := (List.chain'_append_cons_cons.mp hc).2.1 r rfl
      exact ⟨a1, t, by rw [hx], ht⟩
  · intro a t b hlog ht
    rcases mainWith_checks D env with ⟨hres, L, t0, hL, hno, _⟩ | ⟨_, hno⟩
    · rw [hL] at hlog
      have := append_cons_unique
        (fun e => ∃ u, e = Event.checkTime u ∧ D ≤ difftime u env.startTime)
        L _ a b (Event.checkTime t0) (Event.checkTime t) ?_ ?_ ⟨t, rfl, ht⟩ hlog
      · exact ⟨this.2.2, hres⟩
      · rintro e he ⟨u, hu, hle⟩
        subst hu
        exact absurd (hno u he) (not_lt.mpr hle)
      · rintro e he ⟨u, hu, _⟩
        subst hu
        simp at he
    · exact absurd (hno t (by rw [hlog]; simp)) (not_lt.mpr ht)
  · intro h1 h2 h3 h4 c cs hcs
    constructor
    · obtain ⟨rest, hrest⟩ := loop_head D env.localtime c cs (streamState env)
      rw [← hcs] at hrest
      have hfull : (loop D env.localtime env.cycles (streamState env)).1.log
          = [Event.openDev Dev.video true, Event.s_fmt FRAME_WIDTH FRAME_HEIGHT true,
             Event.openDev Dev.i2c true,
             Event.i2c_rdwr { msgs := [{ addr := 0x2A, flags := 0, len := 4,
                                         buf := [1, 4, 0, 0] }], nmsgs := 1 } env.agcOk,
             Event.i2c_rdwr { msgs := [{ addr := 0x2A, flags := 0, len := 4,
                                         buf := [2, 4, 0, 1] }], nmsgs := 1 } env.radOk,
             Event.streamon true]
            ++ Event.startTime env.startTime :: Event.checkTime c.now :: rest := by
        rw [hrest]; rfl
      refine mainWith_elim D env
        (fun r => ∃ pre rest, r.state.log
          = pre ++ Event.startTime env.startTime :: Event.checkTime c.now :: rest)
        ?_ ?_ ?_ ?_ ?_ ?_ ?_
      · intro h; rw [h1] at h; cases h
      · intro _ h; rw [h2] at h; cases h
      · intro _ _ h; rw [h3] at h; cases h
      · intro _ _ _ h; rw [h4] at h; cases h
      · intro _ _ _ _ _
        exact ⟨_, rest, hfull⟩
      · intro _ _ _ _ _
        exact ⟨_, rest ++ [Event.streamoff env.streamOff, Event.close Dev.i2c,
          Event.close Dev.video], by rw [cleanup_log, hfull, List.append_assoc]; rfl⟩
      · intro _ _ _ _ _
        exact ⟨_, rest ++ [Event.streamoff env.streamOff, Event.close Dev.i2c,
          Event.close Dev.video], by rw [cleanup_log, hfull, List.append_assoc]; rfl⟩
    · intro hmono
      have hb := loopBody_duration 0 env.localtime c (streamState env)
        (by simp only [difftime, streamState]; omega)
      have hl := loop_step_stop 0 env.localtime c cs (streamState env) _ _ hb (by decide)
      rw [← hcs] at hl
      rw [mainWith_of_loop_break 0 env _ h1 h2 h3 h4 hl]
      refine ⟨rfl, ?_, rfl⟩
      simp [cleanup_log]

/-! ## Claim C9: handles -/

/-- C9: whenever `main` returns, by whichever exit path, the video handle and
the control-bus handle have each been closed exactly as often as they were
successfully opened (at most once); and when the format is rejected no
stream-on is requested, no output file is opened and the directory is empty. -/
theorem C9_handles_released (D : Int) (env : Env) (ret : Int) (path : ExitPath)
    (h : (mainWith D env).result = some (ret, path)) :
    (mainWith D env).state.log.count (Event.openDev Dev.video true)
      = (mainWith D env).state.log.count (Event.close Dev.video) ∧
    (mainWith D env).state.log.count (Event.openDev Dev.i2c true)
      = (mainWith D env).state.log.count (Event.close Dev.i2c) ∧
    (mainWith D env).state.log.count (Event.close Dev.video) ≤ 1 ∧
    (mainWith D env).state.log.count (Event.close Dev.i2c) ≤ 1 ∧
    (path = ExitPath.formatRejected ↔ (env.openVideo = true ∧ env.sFmt = false)) ∧
    (path = ExitPath.formatRejected →
      (∀ ok, Event.streamon ok ∉ (mainWith D env).state.log) ∧
      (∀ name ok, Event.fopen name ok ∉ (mainWith D env).state.log) ∧
      (mainWith D env).state.files = []) := by
  cases h1 : env.openVideo with
  | false =>
    rw [mainWith_videoOpenFailed D env h1] at h ⊢
    simp only [Option.some.injEq, Prod.mk.injEq] at h
    obtain ⟨_, hp⟩ := h
    subst hp
    simp
  | true =>
    cases h2 : env.sFmt with
    | false =>
      rw [mainWith_formatRejected D env h1 h2] at h ⊢
      simp only [Option.some.injEq, Prod.mk.injEq] at h
      obtain ⟨_, hp⟩ := h
      subst hp
      simp [State.init]
    | true =>
      cases h3 : env.openI2c with
      | false =>
        rw [mainWith_i2cOpenFailed D env h1 h2 h3] at h ⊢
        simp only [Option.some.injEq, Prod.mk.injEq] at h
        obtain ⟨_, hp⟩ := h
        subst hp
        simp
      | true =>
        cases h4 : env.streamOn with
        | false =>
          rw [mainWith_streamOnRejected D env h1 h2 h3 h4] at h ⊢
          simp only [Option.some.injEq, Prod.mk.injEq] at h
          obtain ⟨_, hp⟩ := h
          subst hp
          simp
        | true =>
          obtain ⟨evs, tail, hlog, hk, hres⟩ := mainWith_log_streaming D env h1 h2 h3 h4
          have hc : ∀ e : Event, e.loopKind = false → evs.count e = 0 := by
            intro e he
            apply List.count_eq_zero.mpr
            intro hmem
            rw [hk e hmem] at he
            cases he
          have hpath : path ≠ ExitPath.formatRejected := by
            intro hp
            subst hp
            have hm := h
            rw [mainWith_streaming D env h1 h2 h3 h4] at hm
            rcases hres with ⟨hn, _⟩ | ⟨⟨p, hp⟩, _⟩
            · rw [hn] at h; cases h
            · revert hm
              cases hr : loop D env.localtime env.cycles (streamState env) with
              | mk s1 fl =>
                cases fl with
                | none => simp
                | some f => cases f <;> simp
          rcases hres with ⟨hn, _⟩ | ⟨_, htail⟩
          · rw [hn] at h; cases h
          · rw [hlog, htail]
            simp [streamState, List.count_append, hc _ (rfl : (Event.openDev Dev.video true).loopKind = false),
              hc _ (rfl : (Event.openDev Dev.i2c true).loopKind = false),
              hc _ (rfl : (Event.close Dev.video).loopKind = false),
              hc _ (rfl : (Event.close Dev.i2c).loopKind = false), hpath]

/-- C9, at a run that persists one frame and ends by the duration check. -/
theorem C9_handles_released_witness :
    (mainWith 3600 envOneFrame).result = some (0, ExitPath.durationReached) ∧
    ((mainWith 3600 envOneFrame).state.log.count (Event.openDev Dev.video true)
        = (mainWith 3600 envOneFrame).state.log.count (Event.close Dev.video) ∧
      (mainWith 3600 envOneFrame).state.log.count (Event.openDev Dev.i2c true)
        = (mainWith 3600 envOneFrame).state.log.count (Event.close Dev.i2c) ∧
      (mainWith 3600 envOneFrame).state.log.count (Event.close Dev.video) ≤ 1 ∧
      (mainWith 3600 envOneFrame).state.log.count (Event.close Dev.i2c) ≤ 1 ∧
      (ExitPath.durationReached = ExitPath.formatRejected ↔ (envOneFrame.openVideo = true ∧ envOneFrame.sFmt = false)) ∧
      (ExitPath.durationReached = ExitPath.formatRejected →
        (∀ ok, Event.streamon ok ∉ (mainWith 3600 envOneFrame).state.log) ∧
        (∀ name ok, Event.fopen name ok ∉ (mainWith 3600 envOneFrame).state.log) ∧
        (mainWith 3600 envOneFrame).state.files = [])) := by
  have hl :=
    (loop_step_next 3600 gmtime (cycleOk 0 7) [cycleOk 3600 9] (streamState envOneFrame) _
      (loopBody_fullFrame 3600 gmtime (cycleOk 0 7) (streamState envOneFrame) 0 7
        (by decide) rfl rfl rfl)).trans
     (loop_step_stop 3600 gmtime (cycleOk 3600 9) [] _ _ _
      (loopBody_duration 3600 gmtime (cycleOk 3600 9) _ (by decide)) (by decide))
  have h : (mainWith 3600 envOneFrame).result = some (0, ExitPath.durationReached) := by
    rw [mainWith_of_loop_break 3600 envOneFrame _ rfl rfl rfl rfl hl]
  exact ⟨h, C9_handles_released 3600 envOneFrame 0 ExitPath.durationReached h⟩

/-! ## Claim C10: configuration sequence -/

/-- C10: in every run in which both devices open and the format is accepted, the
log starts with the set-up events followed by exactly two bus transactions, the
first carrying (0x0104, 0) and the second (0x0204, 1), whatever the outcome of
either, and only then the stream-on request; no further bus transaction and no
further stream-on request is made afterwards. -/
theorem C10_configuration_order (D : Int) (env : Env) (h1 : env.openVideo = true)
    (h2 : env.sFmt = true) (h3 : env.openI2c = true) :
    ∃ rest, (mainWith D env).state.log
      = [Event.openDev Dev.video true,
         Event.s_fmt 160 120 true,
         Event.openDev Dev.i2c true,
         Event.i2c_rdwr { msgs := [{ addr := 0x2A, flags := 0, len := 4,
                                     buf := [0x0104 / 256, 0x0104 % 256, 0 / 256, 0 % 256] }],
                          nmsgs := 1 } env.agcOk,
         Event.i2c_rdwr { msgs := [{ addr := 0x2A, flags := 0, len := 4,
                                     buf := [0x0204 / 256, 0x0204 % 256, 1 / 256, 1 % 256] }],
                          nmsgs := 1 } env.radOk,
         Event.streamon env.streamOn] ++ rest ∧
      ∀ e ∈ rest, (∀ data ok, e ≠ Event.i2c_rdwr data ok) ∧ (∀ ok, e ≠ Event.streamon ok) := by
  cases h4 : env.streamOn with
  | false =>
    rw [mainWith_streamOnRejected D env h1 h2 h3 h4]
    exact ⟨[Event.close Dev.i2c, Event.close Dev.video], by simp [FRAME_WIDTH, FRAME_HEIGHT],
      by simp⟩
  | true =>
    obtain ⟨evs, tail, hlog, hk, hres⟩ := mainWith_log_streaming D env h1 h2 h3 h4
    refine ⟨Event.startTime env.startTime :: (evs ++ tail), ?_, ?_⟩
    · rw [hlog]
      simp [streamState, FRAME_WIDTH, FRAME_HEIGHT]
    · intro e he
      rcases List.mem_cons.mp he with h | h
      · subst h; simp
      · rcases List.mem_append.mp h with h | h
        · have := hk e h
          constructor
          · intro data ok heq; subst heq; cases this
          · intro ok heq; subst heq; cases this
        · rcases hres with ⟨_, ht⟩ | ⟨_, ht⟩
          · rw [ht] at h; cases h
          · rw [ht] at h
            simp only [List.mem_cons, List.mem_singleton, List.not_mem_nil, or_false] at h
            rcases h with h | h | h <;> subst h <;> simp

/-- C10, at a run that persists one frame and ends by the duration check. -/
theorem C10_configuration_order_witness :
    (envOneFrame.openVideo = true ∧ envOneFrame.sFmt = true ∧ envOneFrame.openI2c = true) ∧
    (∃ rest, (mainWith 3600 envOneFrame).state.log
      = [Event.openDev Dev.video true,
         Event.s_fmt 160 120 true,
         Event.openDev Dev.i2c true,
         Event.i2c_rdwr { msgs := [{ addr := 0x2A, flags := 0, len := 4,
                                     buf := [0x0104 / 256, 0x0104 % 256, 0 / 256, 0 % 256] }],
                          nmsgs := 1 } envOneFrame.agcOk,
         Event.i2c_rdwr { msgs := [{ addr := 0x2A, flags := 0, len := 4,
                                     buf := [0x0204 / 256, 0x0204 % 256, 1 / 256, 1 % 256] }],
                          nmsgs := 1 } envOneFrame.radOk,
         Event.streamon envOneFrame.streamOn] ++ rest ∧
      ∀ e ∈ rest, (∀ data ok, e ≠ Event.i2c_rdwr data ok) ∧ (∀ ok, e ≠ Event.streamon ok)) :=
  ⟨⟨rfl, rfl, rfl⟩, C10_configuration_order 3600 envOneFrame rfl rfl rfl⟩

end Lepton
